import Mathlib

/-!
# lua-homebridge: the UDP binding (`bridge/src/ludplib.c`) and the cipher wrapper
(`platform/esp/components/platform/src/cipher.c`)

A shallow embedding of the two C files.  The Lua state, the registry, the userdata
blocks and the trace of calls into the native driver are explicit state; results of
external code (the native driver, script callbacks, the garbage collector, C library
formatting) are read from a `Host` record of oracles, so every theorem holds for every
behaviour of that external code.
-/

namespace LuaHomebridge

/-! ## Lua values and the C API -/

/-- A Lua value as the C API sees it.  Floats are kept opaque (their bit pattern);
`integer` carries the value of a `lua_Integer`. -/
inductive LuaValue where
  | nil
  | boolean (b : Bool)
  | lightuserdata (p : Nat)
  | integer (n : Int)
  | float (bits : Nat)
  | string (s : String)
  | table (id : Nat)
  | func (id : Nat)
  | userdata (addr : Nat)
  | thread (id : Nat)
  deriving DecidableEq, Repr, Inhabited

/-- Type tag `LUA_TNONE` of an index that holds no value. -/
def LUA_TNONE : Int := -1
/-- Type tag `LUA_TFUNCTION`. -/
def LUA_TFUNCTION : Int := 6

/-- The type tag `lua_type` reports for a value (`LUA_TNIL` = 0 ... `LUA_TTHREAD` = 8). -/
def LuaValue.tag : LuaValue → Int
  | .nil => 0
  | .boolean _ => 1
  | .lightuserdata _ => 2
  | .integer _ => 3
  | .float _ => 3
  | .string _ => 4
  | .table _ => 5
  | .func _ => 6
  | .userdata _ => 7
  | .thread _ => 8

/-- An error raised through `lua_error` (a `longjmp` out of the C function). -/
inductive LuaError where
  /-- Raised by `luaL_error(L, msg)` from a C function: the message carries no position. -/
  | error (msg : String)
  /-- Raised by `luaL_typeerror(L, arg, tname)`: argument `arg` is not of the expected type. -/
  | typeerror (arg : Nat) (tname : String)
  deriving DecidableEq, Repr

/-- The struct `ludp_handle`.  Pointers are `Option`: `none` is `NULL`. -/
structure ludp_handle where
  udp : Option Nat
  L : Option Nat
  has_recv_cb : Bool
  has_recv_arg : Bool
  has_err_cb : Bool
  has_err_arg : Bool
  deriving DecidableEq, Repr

/-- The four fields of a handle whose addresses key the registry
(`lua_rawsetp(L, LUA_REGISTRYINDEX, &handle->has_recv_cb)` and so on). -/
inductive Slot where
  | has_recv_cb
  | has_recv_arg
  | has_err_cb
  | has_err_arg
  deriving DecidableEq, Repr

/-- The value of the presence flag stored in the field that keys a slot. -/
def ludp_handle.flag (h : ludp_handle) : Slot → Bool
  | .has_recv_cb => h.has_recv_cb
  | .has_recv_arg => h.has_recv_arg
  | .has_err_cb => h.has_err_cb
  | .has_err_arg => h.has_err_arg

/-- The handle after `HAPRawBufferZero(handle, sizeof(*handle))`. -/
def ludp_handle.zero : ludp_handle :=
  { udp := none, L := none, has_recv_cb := false, has_recv_arg := false,
    has_err_cb := false, has_err_arg := false }

/-- The enum `pal_net_err` (declared in `pal/net.h`, which is not among the sources):
the binding only compares a result with `PAL_NET_ERR_OK`. -/
inductive pal_net_err where
  | PAL_NET_ERR_OK
  | PAL_NET_ERR_OTHER (code : Nat)
  deriving DecidableEq, Repr

/-- The two C functions the binding hands to the native driver as event handlers. -/
inductive CHandler where
  | ludp_recv_cb
  | ludp_err_cb
  deriving DecidableEq, Repr

/-- One call into the native driver, with its arguments.  For the two handler setters
the pair is `(handler, arg)`; `none` is the call with `NULL, NULL`. -/
inductive PalCall where
  | udp_new (domain : Nat)
  | udp_free (udp : Nat)
  | udp_enable_broadcast (udp : Nat)
  | udp_bind (udp : Nat) (addr : String) (port : Nat)
  | udp_connect (udp : Nat) (addr : String) (port : Nat)
  | udp_send (udp : Nat) (data : String)
  | udp_sendto (udp : Nat) (data : String) (addr : String) (port : Nat)
  | udp_set_recv_cb (udp : Nat) (handler : Option (CHandler × Nat))
  | udp_set_err_cb (udp : Nat) (handler : Option (CHandler × Nat))
  deriving DecidableEq, Repr

/-- The part of the state that scripts, the binding and the collector share: the
registry entries keyed by handle fields, the `UdpHandle*` userdata blocks (by address),
the allocation frontier, and the trace of native driver calls made so far. -/
structure Store where
  registry : Nat → Slot → LuaValue
  udata : Nat → Option ludp_handle
  brk : Nat
  pal : List PalCall

/-- A line handed to `HAPLogError(&lnet_log, "%s: %s", __func__, text)`; `text` is the
`const char *` argument, `none` when it is `NULL`. -/
structure LogLine where
  func : String
  text : Option String
  deriving DecidableEq, Repr

/-- Failure status of `lua_pcall` (`LUA_ERRRUN` = 2, `LUA_ERRMEM` = 4, `LUA_ERRERR` = 5). -/
inductive ErrStatus where
  | LUA_ERRRUN
  | LUA_ERRMEM
  | LUA_ERRERR
  deriving DecidableEq, Repr

/-- The integer code of a failure status; none of them is `LUA_OK` = 0. -/
def ErrStatus.code : ErrStatus → Int
  | .LUA_ERRRUN => 2
  | .LUA_ERRMEM => 4
  | .LUA_ERRERR => 5

/-- A protected call made by the binding through `lua_pcall`: the function value, the
arguments, and how it ended (`none`: success; `some (st, e)`: status `st` with error
object `e` left on the stack). -/
structure PCall where
  fn : LuaValue
  args : List LuaValue
  failure : Option (ErrStatus × LuaValue)
  deriving DecidableEq, Repr

/-- The Lua state `L` together with what the binding can observe around it. -/
structure World where
  store : Store
  /-- The stack of the running C function, bottom first: index 1 is the head. -/
  stack : List LuaValue
  /-- Lines written to `lnet_log`. -/
  log : List LogLine
  /-- Protected calls made through `lua_pcall` so far. -/
  pcalls : List PCall
  /-- The address of this `lua_State`. -/
  L : Nat

/-- Everything outside the two C files: each field gives the result of external code. -/
structure Host where
  /-- The array `net_domain_strs` (`PAL_NET_DOMAIN_STRS`, from a header not among the sources). -/
  net_domain_strs : List String
  /-- Result of `pal_udp_new(domain)` given the driver calls made before: `none` is `NULL`. -/
  pal_udp_new : List PalCall → Nat → Option Nat
  /-- Result of a driver call that returns a `pal_net_err`, given the calls made before. -/
  pal_result : List PalCall → PalCall → pal_net_err
  /-- Contents of a block fresh from `lua_newuserdata` (uninitialised memory). -/
  uninit : Nat → ludp_handle
  /-- The text `%p` prints for a pointer. -/
  ptr2str : Nat → String
  /-- The text Lua prints for a float (`LUAI_NUMFFORMAT`). -/
  flt2str : Nat → String
  /-- Conversion of a float to an integer, when it has an exact integer value. -/
  flt2int : Nat → Option Int
  /-- Conversion of a string to an integer, when it is a numeral with an integer value. -/
  str2int : String → Option Int
  /-- The function value `lc_push_traceback` pushes. -/
  traceback : LuaValue
  /-- Running `f(args...)` in protected mode with message handler `msgh`: how it ends
  and what the script did to the shared store meanwhile. -/
  call : (msgh : LuaValue) → (f : LuaValue) → (args : List LuaValue) → Store →
    Option (ErrStatus × LuaValue) × Store
  /-- What a collection pass run by `lc_collectgarbage` does to the shared store. -/
  collectgarbage : Store → Store

/-- The value at a positive stack index, `none` past the top (`LUA_TNONE`). -/
def index2value (w : World) (idx : Nat) : Option LuaValue :=
  if idx = 0 then none else w.stack.get? (idx - 1)

/-- Model of `lua_type(L, idx)`. -/
def lua_type (w : World) (idx : Nat) : Int :=
  match index2value w idx with
  | none => LUA_TNONE
  | some v => v.tag

/-- Model of `lua_isnoneornil(L, idx)`: `lua_type(L, idx) <= 0`. -/
def lua_isnoneornil (w : World) (idx : Nat) : Bool :=
  decide (lua_type w idx ≤ 0)

/-- Push a value on the stack. -/
def lua_push (w : World) (v : LuaValue) : World :=
  { w with stack := w.stack ++ [v] }

/-- Model of `lua_pushnil`. -/
def lua_pushnil (w : World) : World := lua_push w .nil

/-- Model of `luaL_pushfail`, which Lua 5.4 defines as `lua_pushnil`. -/
def luaL_pushfail (w : World) : World := lua_pushnil w

/-- Model of `lua_pushboolean`. -/
def lua_pushboolean (w : World) (b : Bool) : World := lua_push w (.boolean b)

/-- Model of `lua_pushinteger`. -/
def lua_pushinteger (w : World) (n : Int) : World := lua_push w (.integer n)

/-- Model of `lua_pushlstring(L, s, len)`: the argument holds the `len` bytes to copy. -/
def lua_pushlstring (w : World) (s : String) : World := lua_push w (.string s)

/-- Model of `lua_pushstring(L, s)` for a non-`NULL` C string given by its bytes. -/
def lua_pushstring (w : World) (s : String) : World := lua_push w (.string s)

/-- Model of `lua_pushvalue(L, idx)` for a positive index: an index past the top reads
as nil. -/
def lua_pushvalue (w : World) (idx : Nat) : World :=
  lua_push w ((index2value w idx).getD .nil)

/-- Model of `lua_settop(L, 0)`. -/
def lua_settop0 (w : World) : World := { w with stack := [] }

/-- Overwrite one registry entry. -/
def Store.setreg (s : Store) (addr : Nat) (k : Slot) (v : LuaValue) : Store :=
  { s with registry := fun a r => if a = addr ∧ r = k then v else s.registry a r }

/-- Overwrite one userdata block. -/
def Store.setudata (s : Store) (addr : Nat) (h : ludp_handle) : Store :=
  { s with udata := fun a => if a = addr then some h else s.udata a }

/-- Model of `lua_rawsetp(L, LUA_REGISTRYINDEX, &handle->k)` for the handle at `addr`:
pops the top of the stack and stores it under the key. -/
def lua_rawsetp (w : World) (addr : Nat) (k : Slot) : World :=
  { w with store := w.store.setreg addr k (w.stack.getLast?.getD .nil),
           stack := w.stack.dropLast }

/-- Model of `lua_rawgetp(L, LUA_REGISTRYINDEX, &handle->k)`: pushes the stored value
and returns its type tag. -/
def lua_rawgetp (w : World) (addr : Nat) (k : Slot) : Int × World :=
  ((w.store.registry addr k).tag, lua_push w (w.store.registry addr k))

/-- Model of `lua_tolstring` (`lua_tostring`): the text of a string or a number, `NULL`
for any other value.  (The in-place conversion of a number on the stack is not
represented: no code here reads the slot again.) -/
def lua_tolstring (host : Host) : LuaValue → Option String
  | .string s => some s
  | .integer n => some (toString n)
  | .float b => some (host.flt2str b)
  | _ => none

/-- Model of `lua_tointegerx`: integers, floats with an exact integer value and
strings that convert to one. -/
def lua_tointegerx (host : Host) : LuaValue → Option Int
  | .integer n => some n
  | .float b => host.flt2int b
  | .string s => host.str2int s
  | _ => none

/-- Model of `luaL_checklstring(L, idx, &len)`: the bytes of the string. -/
def luaL_checklstring (host : Host) (w : World) (idx : Nat) : Except LuaError String :=
  match (index2value w idx).bind (lua_tolstring host) with
  | some s => .ok s
  | none => .error (.typeerror idx "string")

/-- Model of `luaL_checkstring(L, idx)`: the same pointer, without the length. -/
def luaL_checkstring (host : Host) (w : World) (idx : Nat) : Except LuaError String :=
  luaL_checklstring host w idx

/-- Model of `luaL_checkinteger(L, idx)`. -/
def luaL_checkinteger (host : Host) (w : World) (idx : Nat) : Except LuaError Int :=
  match (index2value w idx).bind (lua_tointegerx host) with
  | some n => .ok n
  | none => .error (.typeerror idx "number")

/-- The metatable name `LUA_UDP_HANDLE_NAME`. -/
def LUA_UDP_HANDLE_NAME : String := "UdpHandle*"

/-- Model of the macro `LPAL_NET_UDP_GET_HANDLE(L, idx)`, that is
`luaL_checkudata(L, idx, LUA_UDP_HANDLE_NAME)`: the address of the block and its
current contents. -/
def LPAL_NET_UDP_GET_HANDLE (w : World) (idx : Nat) : Except LuaError (Nat × ludp_handle) :=
  match index2value w idx with
  | some (.userdata a) =>
    match w.store.udata a with
    | some h => .ok (a, h)
    | none => .error (.typeerror idx LUA_UDP_HANDLE_NAME)
  | _ => .error (.typeerror idx LUA_UDP_HANDLE_NAME)

/-- The bytes of a C string: what a `const char *` denotes, up to the first NUL. -/
def cstr (s : String) : String :=
  String.mk (s.data.takeWhile (fun c => c ≠ Char.ofNat 0))

/-- Model of `HAPStringAreEqual`: equality of two NUL-terminated strings. -/
def HAPStringAreEqual (a b : String) : Bool :=
  decide (cstr a = cstr b)

/-- A script-level call of a C function: the function runs on a fresh frame holding
the arguments, returns the number `n` of results, and the caller receives the top `n`
values; the frame is then dropped. -/
def callC (f : World → Except LuaError (Nat × World)) (args : List LuaValue) (w : World) :
    Except LuaError (List LuaValue × World) :=
  match f { w with stack := args } with
  | .ok (n, w1) => .ok (w1.stack.drop (w1.stack.length - n), { w1 with stack := w.stack })
  | .error e => .error e

/-! ## The native driver seen from the binding -/

/-- A driver call that returns a `pal_net_err`: the call is appended to the trace and
its result read from the host. -/
def pal_call (host : Host) (w : World) (c : PalCall) : pal_net_err × World :=
  (host.pal_result w.store.pal c,
   { w with store := { w.store with pal := w.store.pal ++ [c] } })

/-- A driver call that returns nothing. -/
def pal_call_void (w : World) (c : PalCall) : World :=
  { w with store := { w.store with pal := w.store.pal ++ [c] } }

/-! ## `ludplib.c` -/

/-- Embeds `ludp_to_pcb`. -/
def ludp_to_pcb (w : World) (idx : Nat) : Except LuaError Nat :=
  match LPAL_NET_UDP_GET_HANDLE w idx with
  | .error e => .error e
  | .ok (_, handle) =>
    match handle.udp with
    | none => .error (.error "attempt to use a closed handle")
    | some udp => .ok udp

/-- Embeds `lnet_port_valid`. -/
def lnet_port_valid (port : Int) : Bool :=
  (decide (port ≥ 0)) && (decide (port ≤ 65535))

/-- The cast `(uint16_t)port`. -/
def uint16_t (port : Int) : Nat := (port % 65536).toNat

/-- Embeds `ludp_handle_enable_broadcast`. -/
def ludp_handle_enable_broadcast (host : Host) (w : World) : Except LuaError (Nat × World) := do
  let udp ← ludp_to_pcb w 1
  let (err, w) := pal_call host w (.udp_enable_broadcast udp)
  return (1, lua_pushboolean w (if err = .PAL_NET_ERR_OK then true else false))

/-- Embeds `ludp_handle_bind`. -/
def ludp_handle_bind (host : Host) (w : World) : Except LuaError (Nat × World) := do
  let udp ← ludp_to_pcb w 1
  let addr ← luaL_checkstring host w 2
  let port ← luaL_checkinteger host w 3
  if !lnet_port_valid port then
    return (1, lua_pushboolean w false)
  let (err, w) := pal_call host w (.udp_bind udp addr (uint16_t port))
  if err ≠ .PAL_NET_ERR_OK then
    return (1, lua_pushboolean w false)
  return (1, lua_pushboolean w true)

/-- Embeds `ludp_handle_connect`. -/
def ludp_handle_connect (host : Host) (w : World) : Except LuaError (Nat × World) := do
  let udp ← ludp_to_pcb w 1
  let addr ← luaL_checkstring host w 2
  let port ← luaL_checkinteger host w 3
  if !lnet_port_valid port then
    return (1, lua_pushboolean w false)
  let (err, w) := pal_call host w (.udp_connect udp addr (uint16_t port))
  if err ≠ .PAL_NET_ERR_OK then
    return (1, lua_pushboolean w false)
  return (1, lua_pushboolean w true)

/-- Embeds `ludp_handle_send`. -/
def ludp_handle_send (host : Host) (w : World) : Except LuaError (Nat × World) := do
  let udp ← ludp_to_pcb w 1
  let data ← luaL_checklstring host w 2
  let (err, w) := pal_call host w (.udp_send udp data)
  if err ≠ .PAL_NET_ERR_OK then
    return (1, lua_pushboolean w false)
  return (1, lua_pushboolean w true)

/-- Embeds `ludp_handle_sendto`. -/
def ludp_handle_sendto (host : Host) (w : World) : Except LuaError (Nat × World) := do
  let udp ← ludp_to_pcb w 1
  let data ← luaL_checklstring host w 2
  let addr ← luaL_checkstring host w 3
  let port ← luaL_checkinteger host w 4
  if !lnet_port_valid port then
    return (1, lua_pushboolean w false)
  let (err, w) := pal_call host w (.udp_sendto udp data addr (uint16_t port))
  if err ≠ .PAL_NET_ERR_OK then
    return (1, lua_pushboolean w false)
  return (1, lua_pushboolean w true)

/-- The enumerator `PAL_NET_DOMAIN_COUNT` (from a header not among the sources): the
number of domains, one string of `net_domain_strs` each. -/
def PAL_NET_DOMAIN_COUNT (host : Host) : Nat := host.net_domain_strs.length

/-- The `for` loop of `ludp_open` from index `i` on, over the strings still ahead:
every match overwrites `domain`, so the last one stands. -/
def ludp_open_loop (str : String) : List String → Nat → Nat → Nat
  | [], _, domain => domain
  | s :: rest, i, domain =>
    ludp_open_loop str rest (i + 1) (if HAPStringAreEqual s str then i else domain)

/-- Model of `lua_newuserdata(L, sizeof(ludp_handle))`: a block at a fresh address with
uninitialised contents, pushed on the stack. -/
def lua_newuserdata (host : Host) (w : World) : Nat × World :=
  (w.store.brk,
   { w with
     store := { (w.store.setudata w.store.brk (host.uninit w.store.brk)) with
                brk := w.store.brk + 1 },
     stack := w.stack ++ [.userdata w.store.brk] })

/-- Model of `luaL_setmetatable(L, LUA_UDP_HANDLE_NAME)`.  `Store.udata` holds exactly
the blocks that carry this metatable, and `ludp_open` is the only code that allocates
one, so there is nothing left to record. -/
def luaL_setmetatable (w : World) : World := w

/-- Model of `pal_udp_new(domain)`. -/
def pal_udp_new (host : Host) (w : World) (domain : Nat) : Option Nat × World :=
  (host.pal_udp_new w.store.pal domain, pal_call_void w (.udp_new domain))

/-- Write the block of the handle at `addr`. -/
def World.sethandle (w : World) (addr : Nat) (h : ludp_handle) : World :=
  { w with store := w.store.setudata addr h }

/-- Embeds `ludp_open`. -/
def ludp_open (host : Host) (w : World) : Except LuaError (Nat × World) := do
  let str ← luaL_checkstring host w 1
  let domain := ludp_open_loop str host.net_domain_strs 0 (PAL_NET_DOMAIN_COUNT host)
  if domain = PAL_NET_DOMAIN_COUNT host then
    return (1, luaL_pushfail w)
  let (addr, w) := lua_newuserdata host w
  let w := luaL_setmetatable w
  let handle := host.uninit addr
  let (udp, w) := pal_udp_new host w domain
  let handle := { handle with udp := udp }
  let w := w.sethandle addr handle
  if udp.isNone then
    return (1, luaL_pushfail w)
  let handle := { handle with L := some w.L }
  let handle := { handle with has_recv_cb := false }
  let handle := { handle with has_recv_arg := false }
  let handle := { handle with has_err_cb := false }
  let handle := { handle with has_err_arg := false }
  return (1, w.sethandle addr handle)

/-- How a native event handler can fail to return to the driver. -/
inductive Abort where
  /-- A `HAPAssert` whose condition is false. -/
  | assertion
  /-- The context pointer names no handle, or `handle->L` is `NULL`. -/
  | bad_pointer
  /-- A `HAPPrecondition` whose condition is false. -/
  | precondition
  deriving DecidableEq, Repr

/-- Modelled from the spec: `lc_push_traceback` (in `lc.c`, not among the sources)
installs "an error/traceback collector ahead of the call": it pushes the collector
function. -/
def lc_push_traceback (host : Host) (w : World) : World := lua_push w host.traceback

/-- Modelled from the spec: `lc_collectgarbage` (in `lc.c`, not among the sources)
"signals the host runtime that an incremental memory-reclamation pass may run": the
pass may finalise handles, so it acts on the shared store, and it leaves the stack
and the log alone. -/
def lc_collectgarbage (host : Host) (w : World) : World :=
  { w with store := host.collectgarbage w.store }

/-- Model of `lua_pcall(L, nargs, 0, msgh)` with a positive `msgh`: the function sits
below its `nargs` arguments; both are popped, on failure the error object is pushed.
Returns the status. -/
def lua_pcall (host : Host) (w : World) (nargs : Nat) (msgh : Nat) : Int × World :=
  let args := w.stack.drop (w.stack.length - nargs)
  let below := w.stack.take (w.stack.length - nargs)
  let fn := below.getLast?.getD .nil
  let r := host.call ((index2value w msgh).getD .nil) fn args w.store
  let w1 := { w with store := r.2, stack := below.dropLast,
                     pcalls := w.pcalls ++ [{ fn := fn, args := args, failure := r.1 }] }
  match r.1 with
  | none => (0, w1)
  | some (st, e) => (st.code, lua_push w1 e)

/-- Model of `HAPLogError(&lnet_log, "%s: %s", func, text)`. -/
def HAPLogError (w : World) (func : String) (text : Option String) : World :=
  { w with log := w.log ++ [{ func := func, text := text }] }

/-- Embeds `ludp_recv_cb`; `data` holds the `len` bytes of the datagram and `arg` is
the context pointer the driver passes back. -/
def ludp_recv_cb (host : Host) (w : World) (_udp : Nat) (data : String)
    (from_addr : String) (from_port : Fin 65536) (arg : Nat) : Except Abort World :=
  match w.store.udata arg with
  | none => .error .bad_pointer
  | some handle =>
    match handle.L with
    | none => .error .bad_pointer
    | some _ =>
      let w := lc_push_traceback host w
      let (t, w) := lua_rawgetp w arg .has_recv_cb
      if t ≠ LUA_TFUNCTION then .error .assertion else
      let w := lua_pushlstring w data
      let w := lua_pushstring w from_addr
      let w := lua_pushinteger w from_port.val
      let w := if handle.has_recv_arg then (lua_rawgetp w arg .has_recv_arg).2 else w
      let (status, w) := lua_pcall host w (if handle.has_recv_arg then 4 else 3) 1
      let w := if status ≠ 0 then
          HAPLogError w "ludp_recv_cb" ((w.stack.getLast?).bind (lua_tolstring host))
        else w
      let w := lua_settop0 w
      .ok (lc_collectgarbage host w)

/-- Embeds `ludp_handle_set_recv_cb`. -/
def ludp_handle_set_recv_cb (w : World) : Except LuaError (Nat × World) := do
  let (addr, handle) ← LPAL_NET_UDP_GET_HANDLE w 1
  match handle.udp with
  | none => throw (.error "attempt to use a closed handle")
  | some udp =>
    let handle := { handle with has_recv_cb := !lua_isnoneornil w 2 }
    let w := w.sethandle addr handle
    let w := lua_pushvalue w 2
    let w := lua_rawsetp w addr .has_recv_cb
    let handle := { handle with has_recv_arg := !lua_isnoneornil w 3 }
    let w := w.sethandle addr handle
    let w := lua_pushvalue w 3
    let w := lua_rawsetp w addr .has_recv_arg
    if handle.has_recv_cb then
      return (0, pal_call_void w (.udp_set_recv_cb udp (some (.ludp_recv_cb, addr))))
    else
      return (0, pal_call_void w (.udp_set_recv_cb udp none))

/-- Embeds `ludp_err_cb`. -/
def ludp_err_cb (host : Host) (w : World) (_udp : Nat) (_err : pal_net_err)
    (arg : Nat) : Except Abort World :=
  match w.store.udata arg with
  | none => .error .bad_pointer
  | some handle =>
    match handle.L with
    | none => .error .bad_pointer
    | some _ =>
      let w := lc_push_traceback host w
      let (t, w) := lua_rawgetp w arg .has_err_cb
      if t ≠ LUA_TFUNCTION then .error .assertion else
      let w := if handle.has_err_arg then (lua_rawgetp w arg .has_err_arg).2 else w
      let (status, w) := lua_pcall host w (if handle.has_err_arg then 1 else 0) 1
      let w := if status ≠ 0 then
          HAPLogError w "ludp_err_cb" ((w.stack.getLast?).bind (lua_tolstring host))
        else w
      let w := lua_settop0 w
      .ok (lc_collectgarbage host w)

/-- Embeds `ludp_handle_set_err_cb`. -/
def ludp_handle_set_err_cb (w : World) : Except LuaError (Nat × World) := do
  let (addr, handle) ← LPAL_NET_UDP_GET_HANDLE w 1
  match handle.udp with
  | none => throw (.error "attempt to use a closed handle")
  | some udp =>
    let handle := { handle with has_err_cb := !lua_isnoneornil w 2 }
    let w := w.sethandle addr handle
    let w := lua_pushvalue w 2
    let w := lua_rawsetp w addr .has_err_cb
    let handle := { handle with has_err_arg := !lua_isnoneornil w 3 }
    let w := w.sethandle addr handle
    let w := lua_pushvalue w 3
    let w := lua_rawsetp w addr .has_err_arg
    if handle.has_err_cb then
      return (0, pal_call_void w (.udp_set_err_cb udp (some (.ludp_err_cb, addr))))
    else
      return (0, pal_call_void w (.udp_set_err_cb udp none))

/-- Embeds `lhap_net_udp_handle_reset` for the handle at `addr` with contents `handle`. -/
def lhap_net_udp_handle_reset (w : World) (addr : Nat) (handle : ludp_handle) : World :=
  match handle.udp with
  | none => w
  | some udp =>
    let w := pal_call_void w (.udp_free udp)
    let w := lua_pushnil w
    let w := lua_rawsetp w addr .has_recv_cb
    let w := lua_pushnil w
    let w := lua_rawsetp w addr .has_recv_arg
    let w := lua_pushnil w
    let w := lua_rawsetp w addr .has_err_cb
    let w := lua_pushnil w
    let w := lua_rawsetp w addr .has_err_arg
    w.sethandle addr ludp_handle.zero

/-- Embeds `ludp_handle_close`. -/
def ludp_handle_close (w : World) : Except LuaError (Nat × World) := do
  let (addr, handle) ← LPAL_NET_UDP_GET_HANDLE w 1
  if handle.udp.isNone then
    throw (.error "attempt to use a closed handle")
  return (0, lhap_net_udp_handle_reset w addr handle)

/-- Embeds `ludp_handle_gc`, the `__gc` and `__close` metamethod. -/
def ludp_handle_gc (w : World) : Except LuaError (Nat × World) := do
  let (addr, handle) ← LPAL_NET_UDP_GET_HANDLE w 1
  return (0, lhap_net_udp_handle_reset w addr handle)

/-- Model of `lua_pushliteral(L, s)`. -/
def lua_pushliteral (w : World) (s : String) : World := lua_push w (.string s)

/-- Model of `lua_pushfstring(L, "UDP handle (%p)", p)`. -/
def lua_pushfstring_handle (host : Host) (w : World) (p : Nat) : World :=
  lua_push w (.string ("UDP handle (" ++ host.ptr2str p ++ ")"))

/-- Embeds `ludp_handle_tostring`. -/
def ludp_handle_tostring (host : Host) (w : World) : Except LuaError (Nat × World) := do
  let (_, handle) ← LPAL_NET_UDP_GET_HANDLE w 1
  match handle.udp with
  | some udp => return (1, lua_pushfstring_handle host w udp)
  | none => return (1, lua_pushliteral w "UDP handle (closed)")

/-! ## Scripts driving the binding -/

/-- A script-level operation on the module: `udp.open`, a method of a handle, or one of
the metamethods (`release` is `__gc` / `__close`, `tostring` is `__tostring`), each
with the argument list the script passes. -/
inductive Op where
  | open (args : List LuaValue)
  | enableBroadcast (args : List LuaValue)
  | bind (args : List LuaValue)
  | connect (args : List LuaValue)
  | send (args : List LuaValue)
  | sendto (args : List LuaValue)
  | setRecvCb (args : List LuaValue)
  | setErrCb (args : List LuaValue)
  | close (args : List LuaValue)
  | release (args : List LuaValue)
  | tostring (args : List LuaValue)

/-- Run one operation: the entry of `ludp_funcs`, `ludp_handle_meth` or
`ludp_handle_metameth` it names, called with its arguments. -/
def Op.run (host : Host) : Op → World → Except LuaError (List LuaValue × World)
  | .open args => callC (ludp_open host) args
  | .enableBroadcast args => callC (ludp_handle_enable_broadcast host) args
  | .bind args => callC (ludp_handle_bind host) args
  | .connect args => callC (ludp_handle_connect host) args
  | .send args => callC (ludp_handle_send host) args
  | .sendto args => callC (ludp_handle_sendto host) args
  | .setRecvCb args => callC ludp_handle_set_recv_cb args
  | .setErrCb args => callC ludp_handle_set_err_cb args
  | .close args => callC ludp_handle_close args
  | .release args => callC ludp_handle_gc args
  | .tostring args => callC (ludp_handle_tostring host) args

/-- The state after one operation.  An operation that raises leaves the state as it
was: every function of the binding raises before it writes anything. -/
def step (host : Host) (w : World) (op : Op) : World :=
  match op.run host w with
  | .ok (_, w1) => w1
  | .error _ => w

/-- The state after a sequence of operations. -/
def exec (host : Host) (w : World) : List Op → World
  | [] => w
  | op :: ops => exec host (step host w op) ops

/-- The handle a successful `open` returned, if the operation is one. -/
def Op.opened (host : Host) (w : World) : Op → List Nat
  | .open args =>
    match callC (ludp_open host) args w with
    | .ok ([.userdata a], _) => [a]
    | _ => []
  | _ => []

/-- The addresses of all handles that `open` returned to the script during a run. -/
def opened (host : Host) (w : World) : List Op → List Nat
  | [] => []
  | op :: ops => op.opened host w ++ opened host (step host w op) ops

/-- The state before any script has run: no handle, an empty registry, no driver call. -/
def World.init : World :=
  { store := { registry := fun _ _ => .nil, udata := fun _ => none, brk := 0, pal := [] },
    stack := [], log := [], pcalls := [], L := 1 }

/-- The presence flag of a slot agrees with the registry: it is true exactly when the
registry holds a non-nil value under the handle's key for that slot. -/
def slotOK (s : Store) (addr : Nat) (h : ludp_handle) (k : Slot) : Prop :=
  h.flag k = true ↔ s.registry addr k ≠ .nil

/-- Modelled from the spec: the native driver (not among the sources) delivers receive
events "only while a handler is registered".  The handler registered on socket `udp`
is the one of the last `pal_udp_set_recv_cb` call for it, and none after
`pal_udp_free`. -/
def pal_recv_handler (udp : Nat) (trace : List PalCall) : Option (CHandler × Nat) :=
  trace.foldl (fun cur c =>
    match c with
    | .udp_set_recv_cb u h => if u = udp then h else cur
    | .udp_free u => if u = udp then none else cur
    | _ => cur) none

/-- A host for concrete runs: two domains, a driver that accepts every call and hands
out socket `100 + domain`, and callbacks that end as `failure` says. -/
def sampleHost (failure : Option (ErrStatus × LuaValue)) : Host :=
  { net_domain_strs := ["INET", "INET6"],
    pal_udp_new := fun _ d => some (100 + d),
    pal_result := fun _ _ => .PAL_NET_ERR_OK,
    uninit := fun _ =>
      { udp := some 7, L := some 9, has_recv_cb := true, has_recv_arg := false,
        has_err_cb := true, has_err_arg := true },
    ptr2str := fun _ => "0x3ffb0000",
    flt2str := fun _ => "0.0",
    flt2int := fun _ => none,
    str2int := fun _ => none,
    traceback := .func 0,
    call := fun _ _ _ s => (failure, s),
    collectgarbage := fun s => s }

/-- An open handle at address 0 on socket 100, as `ludp_open` leaves it. -/
def sampleHandle : ludp_handle :=
  { udp := some 100, L := some 1, has_recv_cb := false, has_recv_arg := false,
    has_err_cb := false, has_err_arg := false }

/-- A state with the one handle `sampleHandle` at address 0. -/
def sampleWorld : World :=
  { store := { registry := fun _ _ => .nil,
               udata := fun a => if a = 0 then some sampleHandle else none,
               brk := 1, pal := [.udp_new 0] },
    stack := [], log := [], pcalls := [], L := 1 }

/-- The Lua string `"INET\0x"`: six bytes, with a NUL after the domain name. -/
def inetNulX : String :=
  String.mk ['I', 'N', 'E', 'T', Char.ofNat 0, 'x']

/-! ## `cipher.c` -/

/-- The enum `pal_cipher_padding` (from `pal/cipher.h`, not among the sources), in the
order of the table `pal_cipher_mbedtls_paddings`. -/
inductive pal_cipher_padding where
  | PAL_CIPHER_PADDING_NONE
  | PAL_CIPHER_PADDING_PKCS7
  | PAL_CIPHER_PADDING_ISO7816_4
  | PAL_CIPHER_PADDING_ANSI923
  | PAL_CIPHER_PADDING_ZERO
  | PAL_CIPHER_PADDING_MAX
  deriving DecidableEq, Repr

/-- The enum `pal_cipher_operation` (from `pal/cipher.h`, not among the sources). -/
inductive pal_cipher_operation where
  | PAL_CIPHER_OP_NONE
  | PAL_CIPHER_OP_ENCRYPT
  | PAL_CIPHER_OP_DECRYPT
  | PAL_CIPHER_OP_MAX
  deriving DecidableEq, Repr

/-- The mbedtls enum `mbedtls_cipher_padding_t`. -/
inductive mbedtls_cipher_padding_t where
  | MBEDTLS_PADDING_PKCS7
  | MBEDTLS_PADDING_ONE_AND_ZEROS
  | MBEDTLS_PADDING_ZEROS_AND_LEN
  | MBEDTLS_PADDING_ZEROS
  | MBEDTLS_PADDING_NONE
  deriving DecidableEq, Repr

/-- The mbedtls enum `mbedtls_operation_t`. -/
inductive mbedtls_operation_t where
  | MBEDTLS_OPERATION_NONE
  | MBEDTLS_DECRYPT
  | MBEDTLS_ENCRYPT
  deriving DecidableEq, Repr

/-- The table `pal_cipher_mbedtls_paddings`; it has no entry at `PAL_CIPHER_PADDING_MAX`. -/
def pal_cipher_mbedtls_paddings : pal_cipher_padding → Option mbedtls_cipher_padding_t
  | .PAL_CIPHER_PADDING_NONE => some .MBEDTLS_PADDING_NONE
  | .PAL_CIPHER_PADDING_PKCS7 => some .MBEDTLS_PADDING_PKCS7
  | .PAL_CIPHER_PADDING_ISO7816_4 => some .MBEDTLS_PADDING_ONE_AND_ZEROS
  | .PAL_CIPHER_PADDING_ANSI923 => some .MBEDTLS_PADDING_ZEROS_AND_LEN
  | .PAL_CIPHER_PADDING_ZERO => some .MBEDTLS_PADDING_ZEROS
  | .PAL_CIPHER_PADDING_MAX => none

/-- The table `pal_cipher_mbedtls_ops`; it has entries for the two real operations. -/
def pal_cipher_mbedtls_ops : pal_cipher_operation → Option mbedtls_operation_t
  | .PAL_CIPHER_OP_ENCRYPT => some .MBEDTLS_ENCRYPT
  | .PAL_CIPHER_OP_DECRYPT => some .MBEDTLS_DECRYPT
  | _ => none

/-- The mbedtls functions `cipher.c` calls, over the state `σ` of an
`mbedtls_cipher_context_t`.  Functions that return a status give the `int` (0 is
success) and the context afterwards; the two that produce output give it as well. -/
structure Mbedtls (σ : Type) where
  mbedtls_cipher_reset : σ → Int × σ
  mbedtls_cipher_get_operation : σ → mbedtls_operation_t
  mbedtls_cipher_get_iv_size : σ → Int
  mbedtls_cipher_get_key_bitlen : σ → Int
  mbedtls_cipher_set_padding_mode : σ → mbedtls_cipher_padding_t → Int × σ
  mbedtls_cipher_set_iv : σ → (iv : List Nat) → (iv_len : Int) → Int × σ
  mbedtls_cipher_setkey : σ → (key : List Nat) → (key_bitlen : Int) →
    mbedtls_operation_t → Int × σ
  mbedtls_cipher_update : σ → (input : List Nat) → Int × σ × List Nat
  mbedtls_cipher_finish : σ → Int × σ × List Nat

/-- Conversion of an `int` to the `bool` a function returns: non-zero is `true`. -/
def int_to_bool (r : Int) : Bool := decide (r ≠ 0)

/-- Embeds `pal_cipher_reset`; a `NULL` context is `none`.  The result is the returned
`bool` and the context afterwards. -/
def pal_cipher_reset {σ : Type} (m : Mbedtls σ) (ctx : Option σ) : Except Abort (Bool × σ) :=
  match ctx with
  | none => .error .precondition
  | some c =>
    let r := m.mbedtls_cipher_reset c
    .ok (decide (r.1 = 0), r.2)

/-- Embeds `pal_cipher_set_padding`. -/
def pal_cipher_set_padding {σ : Type} (m : Mbedtls σ) (ctx : Option σ)
    (padding : pal_cipher_padding) : Except Abort (Bool × σ) :=
  match ctx with
  | none => .error .precondition
  | some c =>
    match pal_cipher_mbedtls_paddings padding with
    | none => .error .precondition
    | some mode =>
      let r := m.mbedtls_cipher_set_padding_mode c mode
      .ok (int_to_bool r.1, r.2)

/-- Embeds `pal_cipher_begin`. -/
def pal_cipher_begin {σ : Type} (m : Mbedtls σ) (ctx : Option σ) (op : pal_cipher_operation)
    (key iv : List Nat) : Except Abort (Bool × σ) :=
  match ctx with
  | none => .error .precondition
  | some c =>
    if m.mbedtls_cipher_get_operation c ≠ .MBEDTLS_OPERATION_NONE then .error .precondition else
    match pal_cipher_mbedtls_ops op with
    | none => .error .precondition
    | some mop =>
      let r := m.mbedtls_cipher_set_iv c iv (m.mbedtls_cipher_get_iv_size c)
      if r.1 ≠ 0 then .ok (false, r.2) else
      let r2 := m.mbedtls_cipher_setkey r.2 key (m.mbedtls_cipher_get_key_bitlen r.2) mop
      .ok (decide (r2.1 = 0), r2.2)

/-- Embeds `pal_cipher_update`; `input` holds the `ilen` bytes at `in`, and the bytes
written to `out` are returned. -/
def pal_cipher_update {σ : Type} (m : Mbedtls σ) (ctx : Option σ) (input : Option (List Nat))
    (out : Bool) : Except Abort (Bool × σ × List Nat) :=
  match ctx with
  | none => .error .precondition
  | some c =>
    if m.mbedtls_cipher_get_operation c = .MBEDTLS_OPERATION_NONE then .error .precondition else
    match input with
    | none => .error .precondition
    | some bytes =>
      if !out then .error .precondition else
      let r := m.mbedtls_cipher_update c bytes
      .ok (decide (r.1 = 0), r.2)

/-- Embeds `pal_cipher_finsh`. -/
def pal_cipher_finsh {σ : Type} (m : Mbedtls σ) (ctx : Option σ) (out : Bool) :
    Except Abort (Bool × σ × List Nat) :=
  match ctx with
  | none => .error .precondition
  | some c =>
    if m.mbedtls_cipher_get_operation c = .MBEDTLS_OPERATION_NONE then .error .precondition else
    if !out then .error .precondition else
    let r := m.mbedtls_cipher_finish c
    .ok (decide (r.1 = 0), r.2)

/-- An mbedtls whose every status is `rc`, over a context with no state. -/
def sampleMbedtls (rc : Int) : Mbedtls Unit :=
  { mbedtls_cipher_reset := fun c => (rc, c),
    mbedtls_cipher_get_operation := fun _ => .MBEDTLS_OPERATION_NONE,
    mbedtls_cipher_get_iv_size := fun _ => 16,
    mbedtls_cipher_get_key_bitlen := fun _ => 128,
    mbedtls_cipher_set_padding_mode := fun c _ => (rc, c),
    mbedtls_cipher_set_iv := fun c _ _ => (rc, c),
    mbedtls_cipher_setkey := fun c _ _ _ => (rc, c),
    mbedtls_cipher_update := fun c _ => (rc, c, []),
    mbedtls_cipher_finish := fun c => (rc, c, []) }

/-- The state `sampleWorld` after its handle has been closed. -/
def sampleClosedWorld : World :=
  { store := { registry := fun _ _ => .nil,
               udata := fun a => if a = 0 then some ludp_handle.zero else none,
               brk := 1, pal := [.udp_new 0, .udp_free 100] },
    stack := [], log := [], pcalls := [], L := 1 }

/-- A state in which the handle at address 0 has the function 7 registered as receive
callback and the function 8, with extra argument "ctx", as error callback. -/
def sampleCallbackWorld : World :=
  { store := { registry := fun a k =>
                 if a = 0 then
                   match k with
                   | .has_recv_cb => .func 7
                   | .has_recv_arg => .nil
                   | .has_err_cb => .func 8
                   | .has_err_arg => .string "ctx"
                 else .nil,
               udata := fun a =>
                 if a = 0 then
                   some { udp := some 100, L := some 1, has_recv_cb := true,
                          has_recv_arg := false, has_err_cb := true, has_err_arg := true }
                 else none,
               brk := 1,
               pal := [.udp_new 0, .udp_set_recv_cb 100 (some (.ludp_recv_cb, 0)),
                       .udp_set_err_cb 100 (some (.ludp_err_cb, 0))] },
    stack := [], log := [], pcalls := [], L := 1 }

/-- Nothing lies at or beyond the allocation frontier: no userdata block and no
registry entry keyed by one. -/
def Store.fresh (s : Store) : Prop :=
  ∀ a, s.brk ≤ a → s.udata a = none ∧ ∀ k, s.registry a k = .nil

/-- The handle at `a` exists, each of its four presence flags agrees with the
registry, and if it is Closed all four flags are false and all four slots nil. -/
def Store.consistent (s : Store) (a : Nat) : Prop :=
  ∃ h, s.udata a = some h ∧ (∀ k, slotOK s a h k) ∧
    (h.udp = none → ∀ k, h.flag k = false ∧ s.registry a k = .nil)

/-- Two stores with the same registry, blocks and allocation frontier. -/
def Store.sameHeap (s t : Store) : Prop :=
  t.registry = s.registry ∧ t.udata = s.udata ∧ t.brk = s.brk

/-- The three ways one operation can change the store, with the handles it returned
to the script: nothing but the driver trace changes; one existing handle is rewritten
(its flags staying in agreement with the registry); or one block is allocated at the
frontier, returned only if it is Open with all flags false. -/
def Store.transition (s t : Store) (new : List Nat) : Prop :=
  (s.sameHeap t ∧ new = []) ∨
  (∃ a0 h0 h1, s.udata a0 = some h0 ∧ t.udata a0 = some h1 ∧
    ((∀ k, slotOK s a0 h0 k) → ∀ k, slotOK t a0 h1 k) ∧
    (h1.udp = none → ∀ k, h1.flag k = false ∧ t.registry a0 k = .nil) ∧
    (∀ b, b ≠ a0 → t.udata b = s.udata b ∧ ∀ k, t.registry b k = s.registry b k) ∧
    t.brk = s.brk ∧ new = []) ∨
  (∃ hnew, t.brk = s.brk + 1 ∧ t.registry = s.registry ∧
    (∀ b, b ≠ s.brk → t.udata b = s.udata b) ∧ t.udata s.brk = some hnew ∧
    (new = [] ∨ (new = [s.brk] ∧ hnew.udp.isSome ∧ ∀ k, hnew.flag k = false)))

/-- A short script: open a handle, register a receive callback with an extra
argument, then close the handle. -/
def sampleScript : List Op :=
  [.open [.string "INET"],
   .setRecvCb [.userdata 0, .func 7, .string "ctx"],
   .close [.userdata 0]]

/-! ## Theorems -/

/-! ### The C API model -/

theorem tag_le_zero (v : LuaValue) : v.tag ≤ 0 ↔ v = .nil := by
  cases v <;> simp [LuaValue.tag]

theorem lua_isnoneornil_eq (w : World) (idx : Nat) :
    lua_isnoneornil w idx = decide ((index2value w idx).getD .nil = .nil) := by
  unfold lua_isnoneornil lua_type
  cases index2value w idx <;> simp [LUA_TNONE, tag_le_zero]

/-- Pushing a value and storing it with `lua_rawsetp` leaves the stack as it was. -/
theorem rawsetp_push (w : World) (v : LuaValue) (a : Nat) (k : Slot) :
    lua_rawsetp (lua_push w v) a k = { w with store := w.store.setreg a k v } := by
  simp [lua_rawsetp, lua_push]

/-- The first argument of a method call names the handle stored at its address. -/
theorem get_handle_arg (w : World) (a : Nat) (h : ludp_handle) (rest : List LuaValue)
    (hh : w.store.udata a = some h) :
    LPAL_NET_UDP_GET_HANDLE { w with stack := .userdata a :: rest } 1 = .ok (a, h) := by
  simp [LPAL_NET_UDP_GET_HANDLE, index2value, hh]

/-- A C function that returns no result hands the caller an empty list. -/
theorem callC_ok0 (f : World → Except LuaError (Nat × World)) (args : List LuaValue)
    (w w1 : World) (hf : f { w with stack := args } = .ok (0, w1)) :
    callC f args w = .ok ([], { w1 with stack := w.stack }) := by
  simp [callC, hf]

/-- A C function that returns one result hands the caller the top of its stack. -/
theorem callC_ok1 (f : World → Except LuaError (Nat × World)) (args : List LuaValue)
    (w w1 : World) (v : LuaValue) (hf : f { w with stack := args } = .ok (1, lua_push w1 v)) :
    callC f args w = .ok ([v], { w1 with stack := w.stack }) := by
  simp [callC, hf, lua_push]

theorem callC_error (f : World → Except LuaError (Nat × World)) (args : List LuaValue)
    (w : World) (e : LuaError) (hf : f { w with stack := args } = .error e) :
    callC f args w = .error e := by
  simp [callC, hf]

theorem uint16_t_of_valid (port : Int) (h0 : 0 ≤ port) (h1 : port ≤ 65535) :
    uint16_t port = port.toNat := by
  unfold uint16_t
  rw [Int.emod_eq_of_lt h0 (by omega)]

theorem handle_text_ne (x : String) :
    ("UDP handle (" ++ x ++ ")") ≠ "" ∧ ("UDP handle (" ++ x ++ ")") ≠ "closed" := by
  constructor <;>
  · intro h
    have := congrArg String.data h
    simp at this

/-! ### Lifecycle -/

/-- Claim C1: for a handle in the Open state, an explicit `close` succeeds, frees the
native socket and leaves the handle Closed (zeroed); a second explicit `close` raises
"attempt to use a closed handle"; and the release metamethod (`__gc` / `__close`) run on
the closed handle does not raise and returns the very same state: no native call, the
handle and the slot store unchanged. -/
theorem close_twice_raises_release_is_silent (w : World) (a p : Nat) (h : ludp_handle)
    (rest : List LuaValue) (hh : w.store.udata a = some h) (hopen : h.udp = some p) :
    ∃ w1, callC ludp_handle_close (.userdata a :: rest) w = .ok ([], w1) ∧
      w1.store.udata a = some ludp_handle.zero ∧
      w1.store.pal = w.store.pal ++ [.udp_free p] ∧
      (∀ args, callC ludp_handle_close (.userdata a :: args) w1
        = .error (.error "attempt to use a closed handle")) ∧
      (∀ args, callC ludp_handle_gc (.userdata a :: args) w1 = .ok ([], w1)) := by
  refine ⟨{ (lhap_net_udp_handle_reset { w with stack := .userdata a :: rest } a h) with
    stack := w.stack }, ?_, ?_, ?_, ?_, ?_⟩
  · simp [callC, ludp_handle_close, LPAL_NET_UDP_GET_HANDLE, index2value, hh, hopen,
      bind, Except.bind, pure, Except.pure]
  · simp [lhap_net_udp_handle_reset, hopen, World.sethandle, Store.setudata]
  · simp [lhap_net_udp_handle_reset, hopen, World.sethandle, Store.setudata, lua_rawsetp,
      lua_pushnil, lua_push, pal_call_void, Store.setreg]
  · intro args
    simp [callC, ludp_handle_close, LPAL_NET_UDP_GET_HANDLE, index2value, hopen,
      bind, Except.bind, lhap_net_udp_handle_reset, World.sethandle,
      Store.setudata, ludp_handle.zero, throw, throwThe, MonadExceptOf.throw]
  · intro args
    simp [callC, ludp_handle_gc, LPAL_NET_UDP_GET_HANDLE, index2value, hopen,
      bind, Except.bind, pure, Except.pure, lhap_net_udp_handle_reset, World.sethandle,
      Store.setudata, ludp_handle.zero]

theorem close_twice_raises_release_is_silent_witness :
    ∃ w1, callC ludp_handle_close [.userdata 0] sampleWorld = .ok ([], w1) ∧
      w1.store.udata 0 = some ludp_handle.zero ∧
      w1.store.pal = sampleWorld.store.pal ++ [.udp_free 100] ∧
      (∀ args, callC ludp_handle_close (.userdata 0 :: args) w1
        = .error (.error "attempt to use a closed handle")) ∧
      (∀ args, callC ludp_handle_gc (.userdata 0 :: args) w1 = .ok ([], w1)) :=
  close_twice_raises_release_is_silent sampleWorld 0 100 sampleHandle [] rfl rfl

/-! ### Facade -/

/-- Claim C5: on an Open handle, with any address string and any Lua integer port
outside [0, 65535], `bind`, `connect` and `sendto` return false and leave the state
untouched, the trace of native calls included; with a port inside the range `bind`
makes the native bind call with that port and returns true exactly when the driver
reports `PAL_NET_ERR_OK`. -/
theorem port_checked_before_native_call (host : Host) (w : World) (a p : Nat)
    (h : ludp_handle) (data addr : String) (port : Int)
    (hh : w.store.udata a = some h) (hopen : h.udp = some p) :
    ((port < 0 ∨ 65535 < port) →
      callC (ludp_handle_bind host) [.userdata a, .string addr, .integer port] w
        = .ok ([.boolean false], w) ∧
      callC (ludp_handle_connect host) [.userdata a, .string addr, .integer port] w
        = .ok ([.boolean false], w) ∧
      callC (ludp_handle_sendto host)
          [.userdata a, .string data, .string addr, .integer port] w
        = .ok ([.boolean false], w)) ∧
    ((0 ≤ port ∧ port ≤ 65535) →
      ∃ w1, callC (ludp_handle_bind host) [.userdata a, .string addr, .integer port] w
          = .ok ([.boolean (decide (host.pal_result w.store.pal
                (.udp_bind p addr port.toNat) = .PAL_NET_ERR_OK))], w1) ∧
        w1.store.pal = w.store.pal ++ [.udp_bind p addr port.toNat]) := by
  constructor
  · intro hp
    have hv : lnet_port_valid port = false := by
      unfold lnet_port_valid
      rcases hp with hp | hp
      · simp; omega
      · simp; omega
    refine ⟨?_, ?_, ?_⟩ <;>
    simp [callC, ludp_handle_bind, ludp_handle_connect, ludp_handle_sendto, ludp_to_pcb,
      LPAL_NET_UDP_GET_HANDLE, index2value, hh, hopen, luaL_checkstring, luaL_checklstring,
      luaL_checkinteger, lua_tolstring, lua_tointegerx, hv, lua_pushboolean, lua_push,
      bind, Except.bind, pure, Except.pure]
  · rintro ⟨h0, h1⟩
    have hv : lnet_port_valid port = true := by
      simp [lnet_port_valid, h0, h1]
    have hu := uint16_t_of_valid port h0 h1
    by_cases hr : host.pal_result w.store.pal (.udp_bind p addr port.toNat)
        = .PAL_NET_ERR_OK <;>
    simp [callC, ludp_handle_bind, ludp_to_pcb, LPAL_NET_UDP_GET_HANDLE, index2value, hh,
      hopen, luaL_checkstring, luaL_checklstring, luaL_checkinteger, lua_tolstring,
      lua_tointegerx, hv, hu, hr, pal_call, lua_pushboolean, lua_push, bind, Except.bind,
      pure, Except.pure]

theorem port_checked_before_native_call_witness :
    (callC (ludp_handle_bind (sampleHost none))
        [.userdata 0, .string "127.0.0.1", .integer 65536] sampleWorld
      = .ok ([.boolean false], sampleWorld) ∧
    callC (ludp_handle_connect (sampleHost none))
        [.userdata 0, .string "127.0.0.1", .integer 65536] sampleWorld
      = .ok ([.boolean false], sampleWorld) ∧
    callC (ludp_handle_sendto (sampleHost none))
        [.userdata 0, .string "ping", .string "127.0.0.1", .integer 65536] sampleWorld
      = .ok ([.boolean false], sampleWorld)) ∧
    (∃ w1, callC (ludp_handle_bind (sampleHost none))
        [.userdata 0, .string "127.0.0.1", .integer 8080] sampleWorld
        = .ok ([.boolean (decide ((sampleHost none).pal_result sampleWorld.store.pal
              (.udp_bind 100 "127.0.0.1" (8080 : Int).toNat) = .PAL_NET_ERR_OK))], w1) ∧
      w1.store.pal = sampleWorld.store.pal ++ [.udp_bind 100 "127.0.0.1" (8080 : Int).toNat]) :=
  ⟨(port_checked_before_native_call (sampleHost none) sampleWorld 0 100 sampleHandle
      "ping" "127.0.0.1" 65536 rfl rfl).1 (Or.inr (by decide)),
   (port_checked_before_native_call (sampleHost none) sampleWorld 0 100 sampleHandle
      "ping" "127.0.0.1" 8080 rfl rfl).2 ⟨by decide, by decide⟩⟩

/-- Claim C7 as amended: the string representation never fails; for an Open handle
it is "UDP handle (" followed by the pointer text and ")", so a non-empty string
different from "closed"; for a Closed handle it is exactly "UDP handle (closed)". -/
theorem tostring_of_open_and_closed (host : Host) (w : World) (a : Nat) (h : ludp_handle)
    (rest : List LuaValue) (hh : w.store.udata a = some h) :
    (∀ p, h.udp = some p →
      ∃ s, callC (ludp_handle_tostring host) (.userdata a :: rest) w = .ok ([.string s], w) ∧
        s = "UDP handle (" ++ host.ptr2str p ++ ")" ∧ s ≠ "" ∧ s ≠ "closed") ∧
    (h.udp = none →
      callC (ludp_handle_tostring host) (.userdata a :: rest) w
        = .ok ([.string "UDP handle (closed)"], w)) := by
  constructor
  · intro p hp
    refine ⟨"UDP handle (" ++ host.ptr2str p ++ ")", ?_, rfl, handle_text_ne _⟩
    simp [callC, ludp_handle_tostring, LPAL_NET_UDP_GET_HANDLE, index2value, hh, hp,
      lua_pushfstring_handle, lua_push, bind, Except.bind, pure, Except.pure]
  · intro hp
    simp [callC, ludp_handle_tostring, LPAL_NET_UDP_GET_HANDLE, index2value, hh, hp,
      lua_pushliteral, lua_push, bind, Except.bind, pure, Except.pure]

theorem tostring_of_open_and_closed_witness :
    (∃ s, callC (ludp_handle_tostring (sampleHost none)) [.userdata 0] sampleWorld
        = .ok ([.string s], sampleWorld) ∧
      s = "UDP handle (" ++ (sampleHost none).ptr2str 100 ++ ")" ∧ s ≠ "" ∧ s ≠ "closed") ∧
    callC (ludp_handle_tostring (sampleHost none)) [.userdata 0] sampleClosedWorld
      = .ok ([.string "UDP handle (closed)"], sampleClosedWorld) :=
  ⟨(tostring_of_open_and_closed (sampleHost none) sampleWorld 0 sampleHandle [] rfl).1
      100 rfl,
   (tostring_of_open_and_closed (sampleHost none) sampleClosedWorld 0 ludp_handle.zero []
      rfl).2 rfl⟩

/-- Claim C7 fails as stated: on the Closed handle of `sampleClosedWorld` the string
representation is "UDP handle (closed)", which is not the string "closed". -/
theorem tostring_closed_is_not_the_bare_literal :
    sampleClosedWorld.store.udata 0 = some ludp_handle.zero ∧
    ludp_handle.zero.udp = none ∧
    ¬ ∃ w1, callC (ludp_handle_tostring (sampleHost none)) [.userdata 0] sampleClosedWorld
      = .ok ([.string "closed"], w1) := by
  refine ⟨rfl, rfl, ?_⟩
  rintro ⟨w1, hw⟩
  simp [callC, ludp_handle_tostring, LPAL_NET_UDP_GET_HANDLE, index2value, sampleClosedWorld,
    ludp_handle.zero, lua_pushliteral, lua_push, bind, Except.bind, pure, Except.pure] at hw

/-! ### Opening a handle -/

/-- A string without a NUL byte is its own C string, so for such names and arguments
the comparison in `ludp_open` is plain string equality. -/
theorem cstr_of_no_nul (s : String) (h : Char.ofNat 0 ∉ s.data) : cstr s = s := by
  unfold cstr
  have : s.data.takeWhile (fun c => c ≠ Char.ofNat 0) = s.data := by
    rw [List.takeWhile_eq_self_iff]
    intro c hc
    simp only [ne_eq, decide_not, Bool.not_eq_true', decide_eq_false_iff_not]
    rintro rfl
    exact h hc
  rw [this]

/-- What the domain loop computes: either no string matched and `domain` keeps its
initial value, or the result is the index of a string that matches. -/
theorem ludp_open_loop_spec (str : String) (strs : List String) :
    ∀ (i d : Nat),
      (ludp_open_loop str strs i d = d ∧ ∀ n ∈ strs, HAPStringAreEqual n str = false) ∨
      (i ≤ ludp_open_loop str strs i d ∧ ludp_open_loop str strs i d < i + strs.length ∧
        ∃ n, strs.get? (ludp_open_loop str strs i d - i) = some n ∧
          HAPStringAreEqual n str = true) := by
  induction strs with
  | nil => intro i d; left; simp [ludp_open_loop]
  | cons s rest ih =>
    intro i d
    simp only [ludp_open_loop]
    rcases ih (i + 1) (if HAPStringAreEqual s str then i else d) with ⟨hr, hno⟩ | ⟨h1, h2, n, hn, hm⟩
    · by_cases hs : HAPStringAreEqual s str = true
      · right
        rw [hr]
        simp [hs]
      · left
        rw [hr]
        simp only [Bool.not_eq_true] at hs
        simp only [hs, Bool.false_eq_true, if_false, List.mem_cons, forall_eq_or_imp, true_and]
        exact hno
    · right
      refine ⟨by omega, by simp only [List.length_cons]; omega, n, ?_, hm⟩
      have : ludp_open_loop str rest (i + 1) (if HAPStringAreEqual s str then i else d) - i
          = (ludp_open_loop str rest (i + 1) (if HAPStringAreEqual s str then i else d)
              - (i + 1)) + 1 := by omega
      rw [this, List.get?_cons_succ]
      exact hn

/-- Claim C6 as amended: `open(s)` never raises for a string `s`.  The name is compared
as a C string, that is by its bytes before the first NUL: if these equal none of the
enumerated domain names, `open` returns the failure marker (nil) and leaves the state
untouched, so the native allocator is not called; if they match a name, `open` calls
the allocator once with the index `d` of a matching name, returns the failure marker
when the allocator yields `NULL`, and otherwise returns a new userdata whose handle is
Open (`udp` is the new socket) with all four presence flags false. -/
theorem open_compares_name_as_c_string (host : Host) (w : World) (s : String) :
    (∃ r w1, callC (ludp_open host) [.string s] w = .ok (r, w1)) ∧
    ((∀ n ∈ host.net_domain_strs, cstr n ≠ cstr s) →
      callC (ludp_open host) [.string s] w = .ok ([.nil], w)) ∧
    ((∃ n ∈ host.net_domain_strs, cstr n = cstr s) →
      ∃ d n, host.net_domain_strs.get? d = some n ∧ cstr n = cstr s ∧
        (host.pal_udp_new w.store.pal d = none →
          ∃ w1, callC (ludp_open host) [.string s] w = .ok ([.nil], w1) ∧
            w1.store.pal = w.store.pal ++ [.udp_new d]) ∧
        (∀ p, host.pal_udp_new w.store.pal d = some p →
          ∃ w1, callC (ludp_open host) [.string s] w = .ok ([.userdata w.store.brk], w1) ∧
            w1.store.pal = w.store.pal ++ [.udp_new d] ∧
            w1.store.udata w.store.brk = some
              { udp := some p, L := some w.L, has_recv_cb := false, has_recv_arg := false,
                has_err_cb := false, has_err_arg := false })) := by
  have key := ludp_open_loop_spec s host.net_domain_strs 0 (PAL_NET_DOMAIN_COUNT host)
  have hA : (∀ n ∈ host.net_domain_strs, cstr n ≠ cstr s) →
      callC (ludp_open host) [.string s] w = .ok ([.nil], w) := by
    intro hno
    rcases key with ⟨hr, -⟩ | ⟨-, -, n, hn, hm⟩
    · simp [callC, ludp_open, luaL_checkstring, luaL_checklstring, index2value, lua_tolstring,
        hr, luaL_pushfail, lua_pushnil, lua_push, bind, Except.bind, pure, Except.pure]
    · exact absurd (by simpa [HAPStringAreEqual] using hm) (hno n (List.get?_mem hn))
  have hB : (∃ n ∈ host.net_domain_strs, cstr n = cstr s) →
      ∃ d n, host.net_domain_strs.get? d = some n ∧ cstr n = cstr s ∧
        (host.pal_udp_new w.store.pal d = none →
          ∃ w1, callC (ludp_open host) [.string s] w = .ok ([.nil], w1) ∧
            w1.store.pal = w.store.pal ++ [.udp_new d]) ∧
        (∀ p, host.pal_udp_new w.store.pal d = some p →
          ∃ w1, callC (ludp_open host) [.string s] w = .ok ([.userdata w.store.brk], w1) ∧
            w1.store.pal = w.store.pal ++ [.udp_new d] ∧
            w1.store.udata w.store.brk = some
              { udp := some p, L := some w.L, has_recv_cb := false, has_recv_arg := false,
                has_err_cb := false, has_err_arg := false }) := by
    rintro ⟨m, hm, hms⟩
    rcases key with ⟨-, hno⟩ | ⟨-, hlt, n, hn, hmatch⟩
    · have := hno m hm
      simp [HAPStringAreEqual, hms] at this
    · have hne : ludp_open_loop s host.net_domain_strs 0 (PAL_NET_DOMAIN_COUNT host)
          ≠ PAL_NET_DOMAIN_COUNT host := by
        unfold PAL_NET_DOMAIN_COUNT at hlt ⊢
        omega
      rw [Nat.sub_zero] at hn
      refine ⟨_, n, hn, by simpa [HAPStringAreEqual] using hmatch, ?_, ?_⟩
      · intro hnone
        simp [callC, ludp_open, luaL_checkstring, luaL_checklstring, index2value,
          lua_tolstring, hne, lua_newuserdata, luaL_setmetatable, pal_udp_new, pal_call_void,
          World.sethandle, Store.setudata, hnone, luaL_pushfail, lua_pushnil, lua_push,
          bind, Except.bind, pure, Except.pure]
      · intro p hp
        simp [callC, ludp_open, luaL_checkstring, luaL_checklstring, index2value,
          lua_tolstring, hne, lua_newuserdata, luaL_setmetatable, pal_udp_new, pal_call_void,
          World.sethandle, Store.setudata, hp, lua_push,
          bind, Except.bind, pure, Except.pure]
  refine ⟨?_, hA, hB⟩
  by_cases hm : ∃ n ∈ host.net_domain_strs, cstr n = cstr s
  · obtain ⟨d, n, -, -, h1, h2⟩ := hB hm
    cases hp : host.pal_udp_new w.store.pal d with
    | none => obtain ⟨w1, hw, -⟩ := h1 hp; exact ⟨_, _, hw⟩
    | some p => obtain ⟨w1, hw, -⟩ := h2 p hp; exact ⟨_, _, hw⟩
  · exact ⟨_, _, hA (by simpa using hm)⟩

/-- Claim C6 fails as stated: with the domain names "INET" and "INET6", the six-byte
Lua string "INET", NUL, "x" equals neither name, and yet `open` calls the native
allocator and returns a handle instead of the failure marker. -/
theorem open_accepts_name_followed_by_nul :
    inetNulX ∉ (sampleHost none).net_domain_strs ∧
    ∃ w1, callC (ludp_open (sampleHost none)) [.string inetNulX] World.init
        = .ok ([.userdata 0], w1) ∧
      w1.store.pal = [.udp_new 0] := by
  refine ⟨by decide, ?_⟩
  have h1 : HAPStringAreEqual "INET" inetNulX = true := by decide
  have h2 : HAPStringAreEqual "INET6" inetNulX = false := by decide
  simp [callC, ludp_open, luaL_checkstring, luaL_checklstring, index2value,
    lua_tolstring, lua_newuserdata, luaL_setmetatable, pal_udp_new, pal_call_void,
    World.sethandle, Store.setudata, lua_push, sampleHost, World.init, ludp_open_loop,
    PAL_NET_DOMAIN_COUNT, h1, h2, bind, Except.bind, pure, Except.pure]

theorem open_compares_name_as_c_string_witness :
    (∃ n ∈ (sampleHost none).net_domain_strs, cstr n = cstr "INET") ∧
    ∃ d n, (sampleHost none).net_domain_strs.get? d = some n ∧ cstr n = cstr "INET" ∧
      ((sampleHost none).pal_udp_new World.init.store.pal d = none →
        ∃ w1, callC (ludp_open (sampleHost none)) [.string "INET"] World.init
            = .ok ([.nil], w1) ∧
          w1.store.pal = World.init.store.pal ++ [.udp_new d]) ∧
      (∀ p, (sampleHost none).pal_udp_new World.init.store.pal d = some p →
        ∃ w1, callC (ludp_open (sampleHost none)) [.string "INET"] World.init
            = .ok ([.userdata World.init.store.brk], w1) ∧
          w1.store.pal = World.init.store.pal ++ [.udp_new d] ∧
          w1.store.udata World.init.store.brk = some
            { udp := some p, L := some World.init.L, has_recv_cb := false,
              has_recv_arg := false, has_err_cb := false, has_err_arg := false }) :=
  ⟨⟨"INET", by decide, rfl⟩,
   (open_compares_name_as_c_string (sampleHost none) World.init "INET").2.2
     ⟨"INET", by decide, rfl⟩⟩

/-! ### Callback slots -/

theorem index2value_arg2 (w : World) (v : LuaValue) (args : List LuaValue) :
    (index2value { w with stack := v :: args } 2).getD .nil = args.headD .nil := by
  cases args <;> simp [index2value]

theorem index2value_arg3 (w : World) (v : LuaValue) (args : List LuaValue) :
    (index2value { w with stack := v :: args } 3).getD .nil = args.tail.headD .nil := by
  rcases args with _ | ⟨x, _ | ⟨y, rest⟩⟩ <;> simp [index2value]

/-- What `ludp_handle_set_recv_cb` does on an Open handle, field by field. -/
theorem set_recv_cb_body (w : World) (a p : Nat) (h : ludp_handle)
    (h1 : LPAL_NET_UDP_GET_HANDLE w 1 = .ok (a, h)) (hopen : h.udp = some p) :
    ∃ w1, ludp_handle_set_recv_cb w = .ok (0, w1) ∧
      w1.store.udata a = some { h with
          has_recv_cb := decide ((index2value w 2).getD .nil ≠ .nil),
          has_recv_arg := decide ((index2value w 3).getD .nil ≠ .nil) } ∧
      w1.store.registry a .has_recv_cb = (index2value w 2).getD .nil ∧
      w1.store.registry a .has_recv_arg = (index2value w 3).getD .nil ∧
      w1.store.registry a .has_err_cb = w.store.registry a .has_err_cb ∧
      w1.store.registry a .has_err_arg = w.store.registry a .has_err_arg ∧
      (∀ b, b ≠ a → w1.store.udata b = w.store.udata b ∧
        ∀ k, w1.store.registry b k = w.store.registry b k) ∧
      w1.store.pal = w.store.pal ++ [.udp_set_recv_cb p
        (if (index2value w 2).getD .nil ≠ .nil then some (.ludp_recv_cb, a) else none)] ∧
      w1.store.brk = w.store.brk ∧ w1.stack = w.stack ∧ w1.log = w.log ∧
      w1.pcalls = w.pcalls ∧ w1.L = w.L := by
  have e2 : ∀ (s : Store), index2value { w with store := s } 2 = index2value w 2 :=
    fun _ => rfl
  have e3 : ∀ (s : Store), index2value { w with store := s } 3 = index2value w 3 :=
    fun _ => rfl
  by_cases hcb : (index2value w 2).getD .nil = .nil <;>
  · simp [ludp_handle_set_recv_cb, h1, hopen, bind, Except.bind, pure, Except.pure,
      lua_isnoneornil_eq, lua_pushvalue, rawsetp_push, World.sethandle, e2, e3, hcb,
      pal_call_void, Store.setreg, Store.setudata]
    intro b hb
    simp [hb]

/-- What `ludp_handle_set_err_cb` does on an Open handle, field by field. -/
theorem set_err_cb_body (w : World) (a p : Nat) (h : ludp_handle)
    (h1 : LPAL_NET_UDP_GET_HANDLE w 1 = .ok (a, h)) (hopen : h.udp = some p) :
    ∃ w1, ludp_handle_set_err_cb w = .ok (0, w1) ∧
      w1.store.udata a = some { h with
          has_err_cb := decide ((index2value w 2).getD .nil ≠ .nil),
          has_err_arg := decide ((index2value w 3).getD .nil ≠ .nil) } ∧
      w1.store.registry a .has_err_cb = (index2value w 2).getD .nil ∧
      w1.store.registry a .has_err_arg = (index2value w 3).getD .nil ∧
      w1.store.registry a .has_recv_cb = w.store.registry a .has_recv_cb ∧
      w1.store.registry a .has_recv_arg = w.store.registry a .has_recv_arg ∧
      (∀ b, b ≠ a → w1.store.udata b = w.store.udata b ∧
        ∀ k, w1.store.registry b k = w.store.registry b k) ∧
      w1.store.pal = w.store.pal ++ [.udp_set_err_cb p
        (if (index2value w 2).getD .nil ≠ .nil then some (.ludp_err_cb, a) else none)] ∧
      w1.store.brk = w.store.brk ∧ w1.stack = w.stack ∧ w1.log = w.log ∧
      w1.pcalls = w.pcalls ∧ w1.L = w.L := by
  have e2 : ∀ (s : Store), index2value { w with store := s } 2 = index2value w 2 :=
    fun _ => rfl
  have e3 : ∀ (s : Store), index2value { w with store := s } 3 = index2value w 3 :=
    fun _ => rfl
  by_cases hcb : (index2value w 2).getD .nil = .nil <;>
  · simp [ludp_handle_set_err_cb, h1, hopen, bind, Except.bind, pure, Except.pure,
      lua_isnoneornil_eq, lua_pushvalue, rawsetp_push, World.sethandle, e2, e3, hcb,
      pal_call_void, Store.setreg, Store.setudata]
    intro b hb
    simp [hb]

theorem pal_recv_handler_set (udp : Nat) (trace : List PalCall)
    (handler : Option (CHandler × Nat)) :
    pal_recv_handler udp (trace ++ [.udp_set_recv_cb udp handler]) = handler := by
  simp [pal_recv_handler, List.foldl_append]

/-- Claim C4: on an Open handle, `setRecvCb` with callback argument `cb` (nil when it
is absent) sets the recv-callback flag to "cb is non-nil", stores `cb` in the
recv-callback slot, and makes one native call `pal_udp_set_recv_cb`, with the receive
entry point and the handle when `cb` is non-nil and with `NULL` when it is nil; the
handle keeps its native socket, the error-callback flags and slots are untouched, and
afterwards the driver has the receive entry point registered if and only if `cb` is
non-nil.  In particular `setRecvCb(h, nil)` clears the flag, stores nil and tells the
driver there is no handler. -/
theorem set_recv_cb_registers_iff_callback (w : World) (a p : Nat) (h : ludp_handle)
    (args : List LuaValue) (hh : w.store.udata a = some h) (hopen : h.udp = some p) :
    ∃ w1 h1, callC ludp_handle_set_recv_cb (.userdata a :: args) w = .ok ([], w1) ∧
      w1.store.udata a = some h1 ∧
      h1.has_recv_cb = decide (args.headD .nil ≠ .nil) ∧
      w1.store.registry a .has_recv_cb = args.headD .nil ∧
      w1.store.pal = w.store.pal ++ [.udp_set_recv_cb p
        (if args.headD .nil ≠ .nil then some (.ludp_recv_cb, a) else none)] ∧
      h1.udp = some p ∧
      h1.has_err_cb = h.has_err_cb ∧ h1.has_err_arg = h.has_err_arg ∧
      w1.store.registry a .has_err_cb = w.store.registry a .has_err_cb ∧
      w1.store.registry a .has_err_arg = w.store.registry a .has_err_arg ∧
      (pal_recv_handler p w1.store.pal = some (.ludp_recv_cb, a) ↔ args.headD .nil ≠ .nil) ∧
      (args.headD .nil = .nil →
        h1.has_recv_cb = false ∧ w1.store.registry a .has_recv_cb = .nil ∧
        w1.store.pal = w.store.pal ++ [.udp_set_recv_cb p none]) := by
  obtain ⟨w1, hw, hu, hr1, -, he1, he2, -, hpal, -⟩ :=
    set_recv_cb_body { w with stack := .userdata a :: args } a p h
      (get_handle_arg w a h args hh) hopen
  rw [index2value_arg2] at hu hr1 hpal
  refine ⟨_, _, callC_ok0 _ _ _ _ hw, hu, rfl, hr1, hpal, hopen, rfl, rfl, he1, he2, ?_, ?_⟩
  · show pal_recv_handler p w1.store.pal = _ ↔ _
    rw [hpal, pal_recv_handler_set]
    by_cases hc : args.headD .nil = .nil <;> simp [hc]
  · intro hc
    refine ⟨by rw [hc]; rfl, by rw [← hc]; exact hr1, ?_⟩
    show w1.store.pal = _
    rw [hpal, hc]
    rfl

theorem set_recv_cb_registers_iff_callback_witness :
    ∃ w1 h1, callC ludp_handle_set_recv_cb [.userdata 0, .nil] sampleWorld = .ok ([], w1) ∧
      w1.store.udata 0 = some h1 ∧
      h1.has_recv_cb = decide ([LuaValue.nil].headD .nil ≠ .nil) ∧
      w1.store.registry 0 .has_recv_cb = [LuaValue.nil].headD .nil ∧
      w1.store.pal = sampleWorld.store.pal ++ [.udp_set_recv_cb 100
        (if [LuaValue.nil].headD .nil ≠ .nil then some (.ludp_recv_cb, 0) else none)] ∧
      h1.udp = some 100 ∧
      h1.has_err_cb = sampleHandle.has_err_cb ∧ h1.has_err_arg = sampleHandle.has_err_arg ∧
      w1.store.registry 0 .has_err_cb = sampleWorld.store.registry 0 .has_err_cb ∧
      w1.store.registry 0 .has_err_arg = sampleWorld.store.registry 0 .has_err_arg ∧
      (pal_recv_handler 100 w1.store.pal = some (.ludp_recv_cb, 0) ↔
        [LuaValue.nil].headD .nil ≠ .nil) ∧
      ([LuaValue.nil].headD .nil = .nil →
        h1.has_recv_cb = false ∧ w1.store.registry 0 .has_recv_cb = .nil ∧
        w1.store.pal = sampleWorld.store.pal ++ [.udp_set_recv_cb 100 none]) :=
  set_recv_cb_registers_iff_callback sampleWorld 0 100 sampleHandle [.nil] rfl rfl

/-! ### The dispatch bridge -/

/-- The protected call on a stack that ends with the function and its arguments: one
call is recorded; both are popped, and on failure the error object is pushed. -/
theorem lua_pcall_spec (host : Host) (w : World) (below args : List LuaValue)
    (f : LuaValue) (msgh : Nat) (hs : w.stack = below ++ f :: args) :
    lua_pcall host w args.length msgh =
      match (host.call ((index2value w msgh).getD .nil) f args w.store).1 with
      | none =>
        (0, { w with
          store := (host.call ((index2value w msgh).getD .nil) f args w.store).2,
          stack := below,
          pcalls := w.pcalls ++ [{ fn := f, args := args, failure := none }] })
      | some (st, e) =>
        (st.code, { w with
          store := (host.call ((index2value w msgh).getD .nil) f args w.store).2,
          stack := below ++ [e],
          pcalls := w.pcalls ++ [{ fn := f, args := args, failure := some (st, e) }] }) := by
  have hlen : w.stack.length - args.length = (below ++ [f]).length := by
    rw [hs]; simp; omega
  have hst : w.stack = (below ++ [f]) ++ args := by rw [hs]; simp
  have hd : w.stack.drop (w.stack.length - args.length) = args := by
    rw [hlen, hst, List.drop_left]
  have ht : w.stack.take (w.stack.length - args.length) = below ++ [f] := by
    rw [hlen, hst, List.take_left]
  have hg : (below ++ [f]).getLast? = some f := by simp
  unfold lua_pcall
  simp only [hd, ht, hg, Option.getD_some, List.dropLast_concat]
  cases hr : (host.call ((index2value w msgh).getD .nil) f args w.store).1 with
  | none => rfl
  | some r => rfl

theorem code_ne_zero (st : ErrStatus) : st.code ≠ 0 := by
  cases st <;> simp [ErrStatus.code]

/-- The message handler `lua_pcall(L, n, 0, 1)` finds at stack index 1 once
`lc_push_traceback` has pushed: the collector when the stack was empty on entry,
otherwise the value already at the bottom of the stack. -/
theorem index1_after_push (w : World) (tb : LuaValue) (rest : List LuaValue) :
    (index2value { w with stack := w.stack ++ tb :: rest } 1).getD .nil
      = (w.stack ++ [tb]).headD .nil := by
  cases hs : w.stack <;> simp [index2value]

/-- What `ludp_recv_cb` does when the recv-callback slot of the handle holds a function:
it runs that function once in protected mode, with the payload, the sender address and
port, and the extra argument when its flag is set, and returns to the driver with an
empty stack; the outcome of the run decides the log: a failure adds one line with the
text of the error object, a success adds nothing. -/
theorem ludp_recv_cb_spec (host : Host) (w : World) (a l f : Nat) (h : ludp_handle)
    (udp : Nat) (data from_addr : String) (from_port : Fin 65536)
    (hh : w.store.udata a = some h) (hL : h.L = some l)
    (hf : w.store.registry a .has_recv_cb = .func f) :
    ∃ w2, ludp_recv_cb host w udp data from_addr from_port a = .ok w2 ∧
      w2.pcalls = w.pcalls ++
        [{ fn := .func f,
           args := [.string data, .string from_addr, .integer from_port.val] ++
             (if h.has_recv_arg then [w.store.registry a .has_recv_arg] else []),
           failure := (host.call ((w.stack ++ [host.traceback]).headD .nil) (.func f)
             ([.string data, .string from_addr, .integer from_port.val] ++
               (if h.has_recv_arg then [w.store.registry a .has_recv_arg] else []))
             w.store).1 }] ∧
      w2.stack = [] ∧
      w2.store = host.collectgarbage
        (host.call ((w.stack ++ [host.traceback]).headD .nil) (.func f)
          ([.string data, .string from_addr, .integer from_port.val] ++
            (if h.has_recv_arg then [w.store.registry a .has_recv_arg] else []))
          w.store).2 ∧
      ((host.call ((w.stack ++ [host.traceback]).headD .nil) (.func f)
          ([.string data, .string from_addr, .integer from_port.val] ++
            (if h.has_recv_arg then [w.store.registry a .has_recv_arg] else []))
          w.store).1 = none → w2.log = w.log) ∧
      (∀ st e,
        (host.call ((w.stack ++ [host.traceback]).headD .nil) (.func f)
          ([.string data, .string from_addr, .integer from_port.val] ++
            (if h.has_recv_arg then [w.store.registry a .has_recv_arg] else []))
          w.store).1 = some (st, e) →
        w2.log = w.log ++ [{ func := "ludp_recv_cb", text := lua_tolstring host e }]) := by
  cases harg : h.has_recv_arg with
  | false =>
    have hp : lua_pcall host
        { w with stack := w.stack ++ [host.traceback, .func f, .string data,
            .string from_addr, .integer from_port.val] } 3 1 = _ :=
      lua_pcall_spec host _ (w.stack ++ [host.traceback])
        [.string data, .string from_addr, .integer from_port.val] (.func f) 1 (by simp)
    rw [index1_after_push] at hp
    generalize (w.stack ++ [host.traceback]).headD .nil = m at hp ⊢
    cases hr : (host.call m
        (.func f) [.string data, .string from_addr, .integer from_port.val] w.store).1 with
    | none =>
      rw [hr] at hp
      simp [ludp_recv_cb, hh, hL, hf, harg, lc_push_traceback, lua_rawgetp, lua_push,
          lua_pushlstring, lua_pushstring, lua_pushinteger, LuaValue.tag, LUA_TFUNCTION, hp,
          hr, lua_settop0, lc_collectgarbage]
    | some r =>
      obtain ⟨st, e⟩ := r
      rw [hr] at hp
      simp [ludp_recv_cb, hh, hL, hf, harg, lc_push_traceback, lua_rawgetp, lua_push,
          lua_pushlstring, lua_pushstring, lua_pushinteger, LuaValue.tag, LUA_TFUNCTION, hp,
          hr, code_ne_zero, lua_settop0, lc_collectgarbage, HAPLogError]
  | true =>
    have hp : lua_pcall host
        { w with stack := w.stack ++ [host.traceback, .func f, .string data,
            .string from_addr, .integer from_port.val, w.store.registry a .has_recv_arg] }
        4 1 = _ :=
      lua_pcall_spec host _ (w.stack ++ [host.traceback])
        [.string data, .string from_addr, .integer from_port.val,
          w.store.registry a .has_recv_arg] (.func f) 1 (by simp)
    rw [index1_after_push] at hp
    generalize (w.stack ++ [host.traceback]).headD .nil = m at hp ⊢
    cases hr : (host.call m
        (.func f) [.string data, .string from_addr, .integer from_port.val,
          w.store.registry a .has_recv_arg] w.store).1 with
    | none =>
      rw [hr] at hp
      simp [ludp_recv_cb, hh, hL, hf, harg, lc_push_traceback, lua_rawgetp, lua_push,
          lua_pushlstring, lua_pushstring, lua_pushinteger, LuaValue.tag, LUA_TFUNCTION, hp,
          hr, lua_settop0, lc_collectgarbage]
    | some r =>
      obtain ⟨st, e⟩ := r
      rw [hr] at hp
      simp [ludp_recv_cb, hh, hL, hf, harg, lc_push_traceback, lua_rawgetp, lua_push,
          lua_pushlstring, lua_pushstring, lua_pushinteger, LuaValue.tag, LUA_TFUNCTION, hp,
          hr, code_ne_zero, lua_settop0, lc_collectgarbage, HAPLogError]

/-- What `ludp_err_cb` does when the error-callback slot of the handle holds a function:
as `ludp_recv_cb_spec`, with no argument but the extra one when its flag is set. -/
theorem ludp_err_cb_spec (host : Host) (w : World) (a l f : Nat) (h : ludp_handle)
    (udp : Nat) (err : pal_net_err)
    (hh : w.store.udata a = some h) (hL : h.L = some l)
    (hf : w.store.registry a .has_err_cb = .func f) :
    ∃ w2, ludp_err_cb host w udp err a = .ok w2 ∧
      w2.pcalls = w.pcalls ++
        [{ fn := .func f,
           args := if h.has_err_arg then [w.store.registry a .has_err_arg] else [],
           failure := (host.call ((w.stack ++ [host.traceback]).headD .nil) (.func f)
             (if h.has_err_arg then [w.store.registry a .has_err_arg] else [])
             w.store).1 }] ∧
      w2.stack = [] ∧
      w2.store = host.collectgarbage
        (host.call ((w.stack ++ [host.traceback]).headD .nil) (.func f)
          (if h.has_err_arg then [w.store.registry a .has_err_arg] else []) w.store).2 ∧
      ((host.call ((w.stack ++ [host.traceback]).headD .nil) (.func f)
          (if h.has_err_arg then [w.store.registry a .has_err_arg] else []) w.store).1
          = none → w2.log = w.log) ∧
      (∀ st e,
        (host.call ((w.stack ++ [host.traceback]).headD .nil) (.func f)
          (if h.has_err_arg then [w.store.registry a .has_err_arg] else []) w.store).1
          = some (st, e) →
        w2.log = w.log ++ [{ func := "ludp_err_cb", text := lua_tolstring host e }]) := by
  cases harg : h.has_err_arg with
  | false =>
    have hp : lua_pcall host
        { w with stack := w.stack ++ [host.traceback, .func f] } 0 1 = _ :=
      lua_pcall_spec host _ (w.stack ++ [host.traceback]) [] (.func f) 1 (by simp)
    rw [index1_after_push] at hp
    generalize (w.stack ++ [host.traceback]).headD .nil = m at hp ⊢
    cases hr : (host.call m (.func f) []
        w.store).1 with
    | none =>
      rw [hr] at hp
      simp [ludp_err_cb, hh, hL, hf, harg, lc_push_traceback, lua_rawgetp, lua_push,
          LuaValue.tag, LUA_TFUNCTION, hp, hr, lua_settop0, lc_collectgarbage]
    | some r =>
      obtain ⟨st, e⟩ := r
      rw [hr] at hp
      simp [ludp_err_cb, hh, hL, hf, harg, lc_push_traceback, lua_rawgetp, lua_push,
          LuaValue.tag, LUA_TFUNCTION, hp, hr, code_ne_zero,
          lua_settop0, lc_collectgarbage, HAPLogError]
  | true =>
    have hp : lua_pcall host
        { w with stack := w.stack ++ [host.traceback, .func f,
            w.store.registry a .has_err_arg] } 1 1 = _ :=
      lua_pcall_spec host _ (w.stack ++ [host.traceback])
        [w.store.registry a .has_err_arg] (.func f) 1 (by simp)
    rw [index1_after_push] at hp
    generalize (w.stack ++ [host.traceback]).headD .nil = m at hp ⊢
    cases hr : (host.call m (.func f)
        [w.store.registry a .has_err_arg] w.store).1 with
    | none =>
      rw [hr] at hp
      simp [ludp_err_cb, hh, hL, hf, harg, lc_push_traceback, lua_rawgetp, lua_push,
          LuaValue.tag, LUA_TFUNCTION, hp, hr, lua_settop0, lc_collectgarbage]
    | some r =>
      obtain ⟨st, e⟩ := r
      rw [hr] at hp
      simp [ludp_err_cb, hh, hL, hf, harg, lc_push_traceback, lua_rawgetp, lua_push,
          LuaValue.tag, LUA_TFUNCTION, hp, hr, code_ne_zero,
          lua_settop0, lc_collectgarbage, HAPLogError]

/-- The state a script-level `setRecvCb(h, args...)` leaves on an Open handle. -/
theorem callC_set_recv_cb (w : World) (a p : Nat) (h : ludp_handle) (args : List LuaValue)
    (hh : w.store.udata a = some h) (hopen : h.udp = some p) :
    ∃ w1, callC ludp_handle_set_recv_cb (.userdata a :: args) w = .ok ([], w1) ∧
      w1.store.udata a = some { h with
          has_recv_cb := decide (args.headD .nil ≠ .nil),
          has_recv_arg := decide (args.tail.headD .nil ≠ .nil) } ∧
      w1.store.registry a .has_recv_cb = args.headD .nil ∧
      w1.store.registry a .has_recv_arg = args.tail.headD .nil ∧
      w1.store.pal = w.store.pal ++ [.udp_set_recv_cb p
        (if args.headD .nil ≠ .nil then some (.ludp_recv_cb, a) else none)] ∧
      w1.pcalls = w.pcalls ∧ w1.log = w.log ∧ w1.stack = w.stack := by
  obtain ⟨w1, hw, hu, hr1, hr2, -, -, -, hpal, -, -, hlog, hpc, -⟩ :=
    set_recv_cb_body { w with stack := .userdata a :: args } a p h
      (get_handle_arg w a h args hh) hopen
  rw [index2value_arg2] at hu hr1 hpal
  rw [index2value_arg3] at hu hr2
  exact ⟨_, callC_ok0 _ _ _ _ hw, hu, hr1, hr2, hpal, hpc, hlog, rfl⟩

/-- Claim C3: for a handle whose receive (respectively error) callback slot holds a
function, every native event makes `ludp_recv_cb` (respectively `ludp_err_cb`) run that
function once in protected mode and return normally to the driver with an empty Lua
stack, whatever the run does.  The outcome of the run, as the host gives it for this
function, these arguments and the installed message handler, decides the log: if the
callback raises, leaving error object `e`, exactly one line with the text of `e` is
added to the log; if it succeeds, the log is unchanged. -/
theorem callback_failure_is_logged_not_raised (host : Host) (w : World) (a l : Nat)
    (h : ludp_handle) (hh : w.store.udata a = some h) (hL : h.L = some l) :
    (∀ f, w.store.registry a .has_recv_cb = .func f →
      ∀ udp data from_addr from_port,
        ∃ w2, ludp_recv_cb host w udp data from_addr from_port a = .ok w2 ∧
          w2.stack = [] ∧
          w2.pcalls = w.pcalls ++
            [{ fn := .func f,
               args := [.string data, .string from_addr, .integer from_port.val] ++
                 (if h.has_recv_arg then [w.store.registry a .has_recv_arg] else []),
               failure := (host.call ((w.stack ++ [host.traceback]).headD .nil) (.func f)
                 ([.string data, .string from_addr, .integer from_port.val] ++
                   (if h.has_recv_arg then [w.store.registry a .has_recv_arg] else []))
                 w.store).1 }] ∧
          w2.store = host.collectgarbage
            (host.call ((w.stack ++ [host.traceback]).headD .nil) (.func f)
              ([.string data, .string from_addr, .integer from_port.val] ++
                (if h.has_recv_arg then [w.store.registry a .has_recv_arg] else []))
              w.store).2 ∧
          ((host.call ((w.stack ++ [host.traceback]).headD .nil) (.func f)
              ([.string data, .string from_addr, .integer from_port.val] ++
                (if h.has_recv_arg then [w.store.registry a .has_recv_arg] else []))
              w.store).1 = none → w2.log = w.log) ∧
          (∀ st e,
            (host.call ((w.stack ++ [host.traceback]).headD .nil) (.func f)
              ([.string data, .string from_addr, .integer from_port.val] ++
                (if h.has_recv_arg then [w.store.registry a .has_recv_arg] else []))
              w.store).1 = some (st, e) →
            w2.log = w.log ++ [{ func := "ludp_recv_cb", text := lua_tolstring host e }])) ∧
    (∀ f, w.store.registry a .has_err_cb = .func f →
      ∀ udp err,
        ∃ w2, ludp_err_cb host w udp err a = .ok w2 ∧
          w2.stack = [] ∧
          w2.pcalls = w.pcalls ++
            [{ fn := .func f,
               args := if h.has_err_arg then [w.store.registry a .has_err_arg] else [],
               failure := (host.call ((w.stack ++ [host.traceback]).headD .nil) (.func f)
                 (if h.has_err_arg then [w.store.registry a .has_err_arg] else [])
                 w.store).1 }] ∧
          w2.store = host.collectgarbage
            (host.call ((w.stack ++ [host.traceback]).headD .nil) (.func f)
              (if h.has_err_arg then [w.store.registry a .has_err_arg] else [])
              w.store).2 ∧
          ((host.call ((w.stack ++ [host.traceback]).headD .nil) (.func f)
              (if h.has_err_arg then [w.store.registry a .has_err_arg] else [])
              w.store).1 = none → w2.log = w.log) ∧
          (∀ st e,
            (host.call ((w.stack ++ [host.traceback]).headD .nil) (.func f)
              (if h.has_err_arg then [w.store.registry a .has_err_arg] else [])
              w.store).1 = some (st, e) →
            w2.log = w.log ++ [{ func := "ludp_err_cb", text := lua_tolstring host e }])) := by
  constructor
  · intro f hf udp data from_addr from_port
    obtain ⟨w2, h2, hpc, hst, hsto, hn, hs⟩ :=
      ludp_recv_cb_spec host w a l f h udp data from_addr from_port hh hL hf
    exact ⟨w2, h2, hst, hpc, hsto, hn, hs⟩
  · intro f hf udp err
    obtain ⟨w2, h2, hpc, hst, hsto, hn, hs⟩ :=
      ludp_err_cb_spec host w a l f h udp err hh hL hf
    exact ⟨w2, h2, hst, hpc, hsto, hn, hs⟩

theorem callback_failure_is_logged_not_raised_witness :
    (∃ w2, ludp_recv_cb (sampleHost (some (.LUA_ERRRUN, .string "boom")))
          sampleCallbackWorld 100 "ping" "10.0.0.5" 5353 0 = .ok w2 ∧
        w2.stack = [] ∧
        w2.log = [{ func := "ludp_recv_cb", text := some "boom" }]) ∧
    (∃ w2, ludp_err_cb (sampleHost (some (.LUA_ERRRUN, .string "boom")))
          sampleCallbackWorld 100 (.PAL_NET_ERR_OTHER 1) 0 = .ok w2 ∧
        w2.stack = [] ∧
        w2.log = [{ func := "ludp_err_cb", text := some "boom" }]) ∧
    (∃ w2, ludp_recv_cb (sampleHost none) sampleCallbackWorld 100 "ping" "10.0.0.5" 5353 0
          = .ok w2 ∧
        w2.stack = [] ∧ w2.log = []) ∧
    (∃ w2, ludp_err_cb (sampleHost none) sampleCallbackWorld 100 (.PAL_NET_ERR_OTHER 1) 0
          = .ok w2 ∧
        w2.stack = [] ∧ w2.log = []) := by
  obtain ⟨hrecv, herr⟩ := callback_failure_is_logged_not_raised
    (sampleHost (some (.LUA_ERRRUN, .string "boom"))) sampleCallbackWorld 0 1 _ rfl rfl
  obtain ⟨hrecv0, herr0⟩ := callback_failure_is_logged_not_raised
    (sampleHost none) sampleCallbackWorld 0 1 _ rfl rfl
  obtain ⟨w2, h2, hst, -, -, -, hs⟩ := hrecv 7 rfl 100 "ping" "10.0.0.5" 5353
  obtain ⟨w3, h3, hst3, -, -, -, hs3⟩ := herr 8 rfl 100 (.PAL_NET_ERR_OTHER 1)
  obtain ⟨w4, h4, hst4, -, -, hn4, -⟩ := hrecv0 7 rfl 100 "ping" "10.0.0.5" 5353
  obtain ⟨w5, h5, hst5, -, -, hn5, -⟩ := herr0 8 rfl 100 (.PAL_NET_ERR_OTHER 1)
  exact ⟨⟨w2, h2, hst, hs .LUA_ERRRUN (.string "boom") rfl⟩,
    ⟨w3, h3, hst3, hs3 .LUA_ERRRUN (.string "boom") rfl⟩,
    ⟨w4, h4, hst4, hn4 rfl⟩, ⟨w5, h5, hst5, hn5 rfl⟩⟩

/-- Claim C9 fails on the code: `setRecvCb(h, 42)` on the Open handle of `sampleWorld`
succeeds and registers `ludp_recv_cb` with the driver, although the stored value is
the number 42 and no function; the next receive event then finds `LUA_TNUMBER` under
the callback key and the `HAPAssert` at the start of the bridge fails. -/
theorem recv_assert_fails_after_non_function_callback :
    ∃ w1, callC ludp_handle_set_recv_cb [.userdata 0, .integer 42] sampleWorld
        = .ok ([], w1) ∧
      pal_recv_handler 100 w1.store.pal = some (.ludp_recv_cb, 0) ∧
      w1.store.registry 0 .has_recv_cb = .integer 42 ∧
      ludp_recv_cb (sampleHost none) w1 100 "ping" "10.0.0.5" 5353 0 = .error .assertion := by
  obtain ⟨w1, hw, hu, hr1, -, hpal, -⟩ :=
    callC_set_recv_cb sampleWorld 0 100 sampleHandle [.integer 42] rfl rfl
  refine ⟨w1, hw, ?_, hr1, ?_⟩
  · rw [hpal, pal_recv_handler_set]
    rfl
  · simp [ludp_recv_cb, hu, hr1, sampleHandle, lc_push_traceback, lua_rawgetp, lua_push,
      LuaValue.tag, LUA_TFUNCTION]

/-! ### The cipher wrapper -/

/-- The convention the other four boolean operations follow, shown for
`pal_cipher_reset`: true exactly when the mbedtls call returns 0. -/
theorem pal_cipher_reset_true_iff {σ : Type} (m : Mbedtls σ) (c : σ) :
    ∃ b c1, pal_cipher_reset m (some c) = .ok (b, c1) ∧
      (b = true ↔ (m.mbedtls_cipher_reset c).1 = 0) := by
  simp [pal_cipher_reset]

/-- The `bool` of `pal_cipher_begin`: true exactly when both `mbedtls_cipher_set_iv` and
`mbedtls_cipher_setkey` return 0; the key is not set after a failed `set_iv`. -/
theorem pal_cipher_begin_true_iff {σ : Type} (m : Mbedtls σ) (c : σ)
    (op : pal_cipher_operation) (mop : mbedtls_operation_t) (key iv : List Nat)
    (hnone : m.mbedtls_cipher_get_operation c = .MBEDTLS_OPERATION_NONE)
    (hop : pal_cipher_mbedtls_ops op = some mop) :
    ∃ b c1, pal_cipher_begin m (some c) op key iv = .ok (b, c1) ∧
      (b = true ↔
        (m.mbedtls_cipher_set_iv c iv (m.mbedtls_cipher_get_iv_size c)).1 = 0 ∧
        (m.mbedtls_cipher_setkey
          (m.mbedtls_cipher_set_iv c iv (m.mbedtls_cipher_get_iv_size c)).2 key
          (m.mbedtls_cipher_get_key_bitlen
            (m.mbedtls_cipher_set_iv c iv (m.mbedtls_cipher_get_iv_size c)).2) mop).1 = 0) := by
  by_cases h0 : (m.mbedtls_cipher_set_iv c iv (m.mbedtls_cipher_get_iv_size c)).1 = 0 <;>
  simp [pal_cipher_begin, hnone, hop, h0]

/-- The `bool` of `pal_cipher_update` and of `pal_cipher_finsh`: true exactly when the
mbedtls call returns 0. -/
theorem pal_cipher_update_finsh_true_iff {σ : Type} (m : Mbedtls σ) (c : σ)
    (input : List Nat)
    (hop : m.mbedtls_cipher_get_operation c ≠ .MBEDTLS_OPERATION_NONE) :
    (∃ b r, pal_cipher_update m (some c) (some input) true = .ok (b, r) ∧
      (b = true ↔ (m.mbedtls_cipher_update c input).1 = 0)) ∧
    (∃ b r, pal_cipher_finsh m (some c) true = .ok (b, r) ∧
      (b = true ↔ (m.mbedtls_cipher_finish c).1 = 0)) := by
  simp [pal_cipher_update, pal_cipher_finsh, hop]

/-- What `pal_cipher_set_padding` returns: the status of
`mbedtls_cipher_set_padding_mode` converted to `bool`, so true exactly when the
mbedtls call fails. -/
theorem pal_cipher_set_padding_true_iff {σ : Type} (m : Mbedtls σ) (c : σ)
    (padding : pal_cipher_padding) (mode : mbedtls_cipher_padding_t)
    (hp : pal_cipher_mbedtls_paddings padding = some mode) :
    ∃ b c1, pal_cipher_set_padding m (some c) padding = .ok (b, c1) ∧
      (b = true ↔ (m.mbedtls_cipher_set_padding_mode c mode).1 ≠ 0) := by
  by_cases h0 : (m.mbedtls_cipher_set_padding_mode c mode).1 = 0 <;>
  simp [pal_cipher_set_padding, hp, int_to_bool, h0]

/-- Claim C10 fails on the code for `pal_cipher_set_padding`: when the one mbedtls call
it makes, `mbedtls_cipher_set_padding_mode`, returns 0 (success), the function returns
false, and when the call returns the error -24832 it returns true; `pal_cipher_reset`
on the same mbedtls returns true on 0 and false on the error. -/
theorem set_padding_returns_false_on_success :
    pal_cipher_set_padding (sampleMbedtls 0) (some ()) .PAL_CIPHER_PADDING_PKCS7
      = .ok (false, ()) ∧
    pal_cipher_set_padding (sampleMbedtls (-24832)) (some ()) .PAL_CIPHER_PADDING_PKCS7
      = .ok (true, ()) ∧
    pal_cipher_reset (sampleMbedtls 0) (some ()) = .ok (true, ()) ∧
    pal_cipher_reset (sampleMbedtls (-24832)) (some ()) = .ok (false, ()) := by
  refine ⟨?_, ?_, ?_, ?_⟩ <;>
  simp [pal_cipher_set_padding, pal_cipher_reset, pal_cipher_mbedtls_paddings, sampleMbedtls,
    int_to_bool]

/-! ### Presence flags and the slot store -/

theorem enable_broadcast_heap (host : Host) (w w1 : World) (n : Nat)
    (h : ludp_handle_enable_broadcast host w = .ok (n, w1)) :
    w.store.sameHeap w1.store := by
  unfold ludp_handle_enable_broadcast at h
  cases h1 : ludp_to_pcb w 1 <;> simp [h1, bind, Except.bind, pure, Except.pure] at h
  obtain ⟨-, rfl⟩ := h
  exact ⟨rfl, rfl, rfl⟩

theorem bind_heap (host : Host) (w w1 : World) (n : Nat)
    (h : ludp_handle_bind host w = .ok (n, w1)) : w.store.sameHeap w1.store := by
  unfold ludp_handle_bind at h
  cases h1 : ludp_to_pcb w 1 <;> simp [h1, bind, Except.bind, pure, Except.pure] at h
  cases h2 : luaL_checkstring host w 2 <;> simp [h2] at h
  cases h3 : luaL_checkinteger host w 3 <;> simp [h3] at h
  split at h
  · simp at h; obtain ⟨-, rfl⟩ := h; exact ⟨rfl, rfl, rfl⟩
  · split at h <;> (simp at h; obtain ⟨-, rfl⟩ := h; exact ⟨rfl, rfl, rfl⟩)

theorem connect_heap (host : Host) (w w1 : World) (n : Nat)
    (h : ludp_handle_connect host w = .ok (n, w1)) : w.store.sameHeap w1.store := by
  unfold ludp_handle_connect at h
  cases h1 : ludp_to_pcb w 1 <;> simp [h1, bind, Except.bind, pure, Except.pure] at h
  cases h2 : luaL_checkstring host w 2 <;> simp [h2] at h
  cases h3 : luaL_checkinteger host w 3 <;> simp [h3] at h
  split at h
  · simp at h; obtain ⟨-, rfl⟩ := h; exact ⟨rfl, rfl, rfl⟩
  · split at h <;> (simp at h; obtain ⟨-, rfl⟩ := h; exact ⟨rfl, rfl, rfl⟩)

theorem send_heap (host : Host) (w w1 : World) (n : Nat)
    (h : ludp_handle_send host w = .ok (n, w1)) : w.store.sameHeap w1.store := by
  unfold ludp_handle_send at h
  cases h1 : ludp_to_pcb w 1 <;> simp [h1, bind, Except.bind, pure, Except.pure] at h
  cases h2 : luaL_checklstring host w 2 <;> simp [h2] at h
  split at h <;> (simp at h; obtain ⟨-, rfl⟩ := h; exact ⟨rfl, rfl, rfl⟩)

theorem sendto_heap (host : Host) (w w1 : World) (n : Nat)
    (h : ludp_handle_sendto host w = .ok (n, w1)) : w.store.sameHeap w1.store := by
  unfold ludp_handle_sendto at h
  cases h1 : ludp_to_pcb w 1 <;> simp [h1, bind, Except.bind, pure, Except.pure] at h
  cases h2 : luaL_checklstring host w 2 <;> simp [h2] at h
  cases h3 : luaL_checkstring host w 3 <;> simp [h3] at h
  cases h4 : luaL_checkinteger host w 4 <;> simp [h4] at h
  split at h
  · simp at h; obtain ⟨-, rfl⟩ := h; exact ⟨rfl, rfl, rfl⟩
  · split at h <;> (simp at h; obtain ⟨-, rfl⟩ := h; exact ⟨rfl, rfl, rfl⟩)

theorem tostring_heap (host : Host) (w w1 : World) (n : Nat)
    (h : ludp_handle_tostring host w = .ok (n, w1)) : w.store.sameHeap w1.store := by
  unfold ludp_handle_tostring at h
  cases h1 : LPAL_NET_UDP_GET_HANDLE w 1 with
  | error e => simp [h1, bind, Except.bind] at h
  | ok r =>
    obtain ⟨a, hd⟩ := r
    simp only [h1, bind, Except.bind, pure, Except.pure] at h
    split at h <;> (simp at h; obtain ⟨-, rfl⟩ := h; exact ⟨rfl, rfl, rfl⟩)

/-- A handle read through `LPAL_NET_UDP_GET_HANDLE` is the block stored at its address. -/
theorem get_handle_udata (w : World) (idx a : Nat) (h : ludp_handle)
    (h1 : LPAL_NET_UDP_GET_HANDLE w idx = .ok (a, h)) : w.store.udata a = some h := by
  unfold LPAL_NET_UDP_GET_HANDLE at h1
  split at h1
  · split at h1
    · simp at h1
      obtain ⟨rfl, rfl⟩ := h1
      assumption
    · simp at h1
  · simp at h1

/-- What the teardown does to an Open handle: the socket is freed, the four slots are
nil, the block is zeroed, and nothing else changes. -/
theorem reset_open (w : World) (a p : Nat) (h : ludp_handle) (hopen : h.udp = some p) :
    (lhap_net_udp_handle_reset w a h).store.udata a = some ludp_handle.zero ∧
    (∀ k, (lhap_net_udp_handle_reset w a h).store.registry a k = .nil) ∧
    (∀ b, b ≠ a → (lhap_net_udp_handle_reset w a h).store.udata b = w.store.udata b ∧
      ∀ k, (lhap_net_udp_handle_reset w a h).store.registry b k = w.store.registry b k) ∧
    (lhap_net_udp_handle_reset w a h).store.brk = w.store.brk ∧
    (lhap_net_udp_handle_reset w a h).store.pal = w.store.pal ++ [.udp_free p] ∧
    (lhap_net_udp_handle_reset w a h).stack = w.stack := by
  simp only [lhap_net_udp_handle_reset, hopen, lua_pushnil, rawsetp_push, World.sethandle,
    pal_call_void, Store.setreg, Store.setudata]
  refine ⟨by simp, ?_, ?_, trivial, trivial, trivial⟩
  · intro k
    cases k <;> simp
  · intro b hb
    simp [hb]

theorem reset_closed (w : World) (a : Nat) (h : ludp_handle) (hc : h.udp = none) :
    lhap_net_udp_handle_reset w a h = w := by
  simp [lhap_net_udp_handle_reset, hc]

theorem sameHeap_keeps (s t : Store) (hst : s.sameHeap t) :
    (s.fresh → t.fresh) ∧ (∀ a, s.consistent a → t.consistent a) := by
  obtain ⟨hr, hu, hb⟩ := hst
  constructor
  · intro hf a ha
    rw [hb] at ha
    rw [hr, hu]
    exact hf a ha
  · rintro a ⟨h, h1, h2, h3⟩
    refine ⟨h, by rw [hu]; exact h1, ?_, ?_⟩
    · intro k
      unfold slotOK
      rw [hr]
      exact h2 k
    · intro hc k
      rw [hr]
      exact h3 hc k

/-- Rewriting one existing handle so that it stays consistent, and nothing else,
keeps the allocation frontier fresh and every handle consistent. -/
theorem update_keeps (s t : Store) (a0 : Nat) (h0 h1 : ludp_handle)
    (hex : s.udata a0 = some h0) (hu : t.udata a0 = some h1)
    (hok : (∀ k, slotOK s a0 h0 k) → ∀ k, slotOK t a0 h1 k)
    (hcl : h1.udp = none → ∀ k, h1.flag k = false ∧ t.registry a0 k = .nil)
    (hoth : ∀ b, b ≠ a0 → t.udata b = s.udata b ∧ ∀ k, t.registry b k = s.registry b k)
    (hbrk : t.brk = s.brk) :
    (s.fresh → t.fresh) ∧ (∀ a, s.consistent a → t.consistent a) := by
  constructor
  · intro hf a ha
    rw [hbrk] at ha
    have hne : a ≠ a0 := by
      rintro rfl
      rw [(hf a ha).1] at hex
      cases hex
    obtain ⟨e1, e2⟩ := hoth a hne
    refine ⟨by rw [e1]; exact (hf a ha).1, fun k => by rw [e2 k]; exact (hf a ha).2 k⟩
  · rintro a ⟨h, h2, h3, h4⟩
    by_cases hne : a = a0
    · subst hne
      rw [hex] at h2
      cases h2
      exact ⟨h1, hu, hok h3, hcl⟩
    · obtain ⟨e1, e2⟩ := hoth a hne
      refine ⟨h, by rw [e1]; exact h2, ?_, ?_⟩
      · intro k
        unfold slotOK
        rw [e2 k]
        exact h3 k
      · intro hc k
        rw [e2 k]
        exact h4 hc k

/-- Allocating a block at the frontier keeps the frontier fresh and the existing
handles consistent; the new handle is consistent when all its flags are false. -/
theorem alloc_keeps (s t : Store) (hnew : ludp_handle)
    (hbrk : t.brk = s.brk + 1) (hreg : t.registry = s.registry)
    (hoth : ∀ b, b ≠ s.brk → t.udata b = s.udata b)
    (hu : t.udata s.brk = some hnew) (hf : s.fresh) :
    t.fresh ∧ (∀ a, s.consistent a → t.consistent a) ∧
    (hnew.udp.isSome → (∀ k, hnew.flag k = false) → t.consistent s.brk) := by
  refine ⟨?_, ?_, ?_⟩
  · intro a ha
    rw [hbrk] at ha
    rw [hoth a (by omega), hreg]
    exact hf a (by omega)
  · rintro a ⟨h, h2, h3, h4⟩
    have hne : a ≠ s.brk := by
      rintro rfl
      rw [(hf _ (le_refl _)).1] at h2
      cases h2
    refine ⟨h, by rw [hoth a hne]; exact h2, ?_, ?_⟩
    · intro k
      unfold slotOK
      rw [hreg]
      exact h3 k
    · intro hc k
      rw [hreg]
      exact h4 hc k
  · intro hsome hfl
    refine ⟨hnew, hu, ?_, ?_⟩
    · intro k
      unfold slotOK
      rw [hreg, (hf _ (le_refl _)).2 k, hfl k]
      simp
    · intro hc
      rw [hc] at hsome
      cases hsome

/-- The result of `ludp_open`, when it returns: either the failure marker with nothing
allocated, or a new block at the frontier, returned to the script only when the
allocator succeeded and then with all four flags false. -/
theorem open_effect (host : Host) (w w1 : World) (n : Nat)
    (h : ludp_open host w = .ok (n, w1)) :
    n = 1 ∧
    ((w1.store = w.store ∧ w1.stack = w.stack ++ [.nil]) ∨
     (∃ hnew, w1.store.brk = w.store.brk + 1 ∧ w1.store.registry = w.store.registry ∧
        (∀ b, b ≠ w.store.brk → w1.store.udata b = w.store.udata b) ∧
        w1.store.udata w.store.brk = some hnew ∧
        (w1.stack = w.stack ++ [.userdata w.store.brk, .nil] ∨
         (w1.stack = w.stack ++ [.userdata w.store.brk] ∧ hnew.udp.isSome ∧
           ∀ k, hnew.flag k = false)))) := by
  unfold ludp_open at h
  cases h1 : luaL_checkstring host w 1 with
  | error e => simp [h1, bind, Except.bind] at h
  | ok str =>
    simp only [h1, bind, Except.bind, pure, Except.pure] at h
    by_cases hd : ludp_open_loop str host.net_domain_strs 0 (PAL_NET_DOMAIN_COUNT host)
        = PAL_NET_DOMAIN_COUNT host
    · simp only [hd, if_true, Except.ok.injEq, Prod.mk.injEq] at h
      obtain ⟨rfl, rfl⟩ := h
      exact ⟨rfl, Or.inl ⟨rfl, rfl⟩⟩
    · cases hp : host.pal_udp_new w.store.pal
          (ludp_open_loop str host.net_domain_strs 0 (PAL_NET_DOMAIN_COUNT host)) with
      | none =>
        simp [hd, lua_newuserdata, luaL_setmetatable, pal_udp_new, Store.setudata, hp] at h
        obtain ⟨rfl, rfl⟩ := h
        refine ⟨rfl, Or.inr ⟨{ host.uninit w.store.brk with udp := none },
          rfl, rfl, ?_, ?_, Or.inl ?_⟩⟩
        · intro b hb
          simp [World.sethandle, Store.setudata, pal_call_void, luaL_pushfail, lua_pushnil,
            lua_push, hb]
        · simp [World.sethandle, Store.setudata, pal_call_void, luaL_pushfail, lua_pushnil,
            lua_push]
        · simp [World.sethandle, pal_call_void, luaL_pushfail, lua_pushnil, lua_push]
      | some p =>
        simp [hd, lua_newuserdata, luaL_setmetatable, pal_udp_new, Store.setudata, hp] at h
        obtain ⟨rfl, rfl⟩ := h
        refine ⟨rfl, Or.inr ⟨ludp_handle.mk (some p) (some w.L) false false false false,
          rfl, rfl, ?_, ?_, Or.inr ⟨?_, ?_, ?_⟩⟩⟩
        · intro b hb
          simp [World.sethandle, Store.setudata, pal_call_void, hb]
        · simp [World.sethandle, Store.setudata, pal_call_void]
        · simp [World.sethandle, pal_call_void]
        · simp
        · intro k
          cases k <;> rfl

/-- Every kind of transition keeps the frontier fresh, keeps consistent handles
consistent, and makes the handles it returns consistent. -/
theorem transition_keeps (s t : Store) (new S : List Nat) (htr : s.transition t new)
    (hf : s.fresh) (hc : ∀ a ∈ S, s.consistent a) :
    t.fresh ∧ ∀ a ∈ S ++ new, t.consistent a := by
  rcases htr with ⟨hh, rfl⟩ | ⟨a0, h0, h1, hex, hu, hok, hcl, hoth, hbrk, rfl⟩ |
    ⟨hnew, hbrk, hreg, hoth, hu, hn⟩
  · obtain ⟨k1, k2⟩ := sameHeap_keeps s t hh
    exact ⟨k1 hf, fun a ha => k2 a (hc a (by simpa using ha))⟩
  · obtain ⟨k1, k2⟩ := update_keeps s t a0 h0 h1 hex hu hok hcl hoth hbrk
    exact ⟨k1 hf, fun a ha => k2 a (hc a (by simpa using ha))⟩
  · obtain ⟨k1, k2, k3⟩ := alloc_keeps s t hnew hbrk hreg hoth hu hf
    refine ⟨k1, fun a ha => ?_⟩
    rcases hn with rfl | ⟨rfl, hs, hfl⟩
    · exact k2 a (hc a (by simpa using ha))
    · rcases List.mem_append.1 ha with ha | ha
      · exact k2 a (hc a ha)
      · rw [List.mem_singleton.1 ha]
        exact k3 hs hfl

theorem transition_refl (s : Store) : s.transition s [] :=
  Or.inl ⟨⟨rfl, rfl, rfl⟩, rfl⟩

/-- An operation that leaves the heap alone, run through `callC`. -/
theorem facade_transition (f : World → Except LuaError (Nat × World))
    (hheap : ∀ W n w1, f W = .ok (n, w1) → W.store.sameHeap w1.store)
    (args : List LuaValue) (w : World) :
    w.store.transition
      (match callC f args w with
        | .ok (_, w1) => w1
        | .error _ => w).store [] := by
  unfold callC
  cases hf : f { w with stack := args } with
  | error e => exact transition_refl _
  | ok r =>
    obtain ⟨n, w1⟩ := r
    exact Or.inl ⟨hheap { w with stack := args } n w1 hf, rfl⟩

theorem set_recv_cb_transition (args : List LuaValue) (w : World) :
    w.store.transition
      (match callC ludp_handle_set_recv_cb args w with
        | .ok (_, w1) => w1
        | .error _ => w).store [] := by
  unfold callC
  cases h1 : LPAL_NET_UDP_GET_HANDLE { w with stack := args } 1 with
  | error e =>
    have : ludp_handle_set_recv_cb { w with stack := args } = .error e := by
      simp [ludp_handle_set_recv_cb, h1, bind, Except.bind]
    rw [this]
    exact transition_refl _
  | ok r =>
    obtain ⟨a, h⟩ := r
    cases hu : h.udp with
    | none =>
      have : ludp_handle_set_recv_cb { w with stack := args }
          = .error (.error "attempt to use a closed handle") := by
        simp [ludp_handle_set_recv_cb, h1, hu, bind, Except.bind, throw, throwThe,
          MonadExceptOf.throw]
      rw [this]
      exact transition_refl _
    | some p =>
      obtain ⟨w1, hw, hud, hr1, hr2, he1, he2, hoth, -, hbrk, -⟩ :=
        set_recv_cb_body { w with stack := args } a p h h1 hu
      rw [hw]
      refine Or.inr (Or.inl ⟨a, h, _, get_handle_udata { w with stack := args } 1 a h h1, hud, ?_, ?_, hoth, hbrk, rfl⟩)
      · intro hold k
        cases k
        · simp [slotOK, ludp_handle.flag, hr1]
        · simp [slotOK, ludp_handle.flag, hr2]
        · have := hold .has_err_cb
          simpa [slotOK, ludp_handle.flag, he1] using this
        · have := hold .has_err_arg
          simpa [slotOK, ludp_handle.flag, he2] using this
      · intro hc
        simp [hu] at hc

theorem set_err_cb_transition (args : List LuaValue) (w : World) :
    w.store.transition
      (match callC ludp_handle_set_err_cb args w with
        | .ok (_, w1) => w1
        | .error _ => w).store [] := by
  unfold callC
  cases h1 : LPAL_NET_UDP_GET_HANDLE { w with stack := args } 1 with
  | error e =>
    have : ludp_handle_set_err_cb { w with stack := args } = .error e := by
      simp [ludp_handle_set_err_cb, h1, bind, Except.bind]
    rw [this]
    exact transition_refl _
  | ok r =>
    obtain ⟨a, h⟩ := r
    cases hu : h.udp with
    | none =>
      have : ludp_handle_set_err_cb { w with stack := args }
          = .error (.error "attempt to use a closed handle") := by
        simp [ludp_handle_set_err_cb, h1, hu, bind, Except.bind, throw, throwThe,
          MonadExceptOf.throw]
      rw [this]
      exact transition_refl _
    | some p =>
      obtain ⟨w1, hw, hud, hr1, hr2, he1, he2, hoth, -, hbrk, -⟩ :=
        set_err_cb_body { w with stack := args } a p h h1 hu
      rw [hw]
      refine Or.inr (Or.inl ⟨a, h, _, get_handle_udata { w with stack := args } 1 a h h1, hud, ?_, ?_, hoth, hbrk, rfl⟩)
      · intro hold k
        cases k
        · have := hold .has_recv_cb
          simpa [slotOK, ludp_handle.flag, he1] using this
        · have := hold .has_recv_arg
          simpa [slotOK, ludp_handle.flag, he2] using this
        · simp [slotOK, ludp_handle.flag, hr1]
        · simp [slotOK, ludp_handle.flag, hr2]
      · intro hc
        simp [hu] at hc

/-- The teardown of an Open handle as a transition of the store. -/
theorem reset_transition (w : World) (a p : Nat) (h : ludp_handle)
    (hex : w.store.udata a = some h) (hopen : h.udp = some p) :
    w.store.transition (lhap_net_udp_handle_reset w a h).store [] := by
  obtain ⟨hz, hnil, hoth, hbrk, -⟩ := reset_open w a p h hopen
  refine Or.inr (Or.inl ⟨a, h, _, hex, hz, ?_, ?_, hoth, hbrk, rfl⟩)
  · intro _ k
    unfold slotOK
    rw [hnil k]
    cases k <;> simp [ludp_handle.flag, ludp_handle.zero]
  · intro _ k
    exact ⟨by cases k <;> rfl, hnil k⟩

theorem close_transition (args : List LuaValue) (w : World) :
    w.store.transition
      (match callC ludp_handle_close args w with
        | .ok (_, w1) => w1
        | .error _ => w).store [] := by
  unfold callC
  cases h1 : LPAL_NET_UDP_GET_HANDLE { w with stack := args } 1 with
  | error e =>
    have : ludp_handle_close { w with stack := args } = .error e := by
      simp [ludp_handle_close, h1, bind, Except.bind]
    rw [this]
    exact transition_refl _
  | ok r =>
    obtain ⟨a, h⟩ := r
    cases hu : h.udp with
    | none =>
      have : ludp_handle_close { w with stack := args }
          = .error (.error "attempt to use a closed handle") := by
        simp [ludp_handle_close, h1, hu, bind, Except.bind, throw, throwThe,
          MonadExceptOf.throw]
      rw [this]
      exact transition_refl _
    | some p =>
      have : ludp_handle_close { w with stack := args }
          = .ok (0, lhap_net_udp_handle_reset { w with stack := args } a h) := by
        simp [ludp_handle_close, h1, hu, bind, Except.bind, pure, Except.pure]
      rw [this]
      exact reset_transition { w with stack := args } a p h (get_handle_udata { w with stack := args } 1 a h h1) hu

theorem gc_transition (args : List LuaValue) (w : World) :
    w.store.transition
      (match callC ludp_handle_gc args w with
        | .ok (_, w1) => w1
        | .error _ => w).store [] := by
  unfold callC
  cases h1 : LPAL_NET_UDP_GET_HANDLE { w with stack := args } 1 with
  | error e =>
    have : ludp_handle_gc { w with stack := args } = .error e := by
      simp [ludp_handle_gc, h1, bind, Except.bind]
    rw [this]
    exact transition_refl _
  | ok r =>
    obtain ⟨a, h⟩ := r
    have : ludp_handle_gc { w with stack := args }
        = .ok (0, lhap_net_udp_handle_reset { w with stack := args } a h) := by
      simp [ludp_handle_gc, h1, bind, Except.bind, pure, Except.pure]
    rw [this]
    cases hu : h.udp with
    | none =>
      rw [reset_closed _ _ _ hu]
      exact transition_refl _
    | some p =>
      exact reset_transition { w with stack := args } a p h (get_handle_udata { w with stack := args } 1 a h h1) hu

theorem drop_last_one (l : List LuaValue) (x : LuaValue) :
    (l ++ [x]).drop ((l ++ [x]).length - 1) = [x] := by
  have : (l ++ [x]).length - 1 = l.length := by simp
  rw [this, List.drop_left]

theorem open_transition (host : Host) (args : List LuaValue) (w : World) :
    w.store.transition
      (match callC (ludp_open host) args w with
        | .ok (_, w1) => w1
        | .error _ => w).store ((Op.open args).opened host w) := by
  have hop : (Op.open args).opened host w =
      match callC (ludp_open host) args w with
      | .ok ([.userdata a], _) => [a]
      | _ => [] := rfl
  rw [hop]
  cases hf : ludp_open host { w with stack := args } with
  | error e =>
    rw [callC_error _ _ _ _ hf]
    exact transition_refl _
  | ok r =>
    obtain ⟨n, w1⟩ := r
    have hc : callC (ludp_open host) args w
        = .ok (w1.stack.drop (w1.stack.length - n), { w1 with stack := w.stack }) := by
      simp [callC, hf]
    rw [hc]
    obtain ⟨hn1, hcase⟩ := open_effect host { w with stack := args } w1 n hf
    subst hn1
    rcases hcase with ⟨hs, hst⟩ | ⟨hnew, hbrk, hreg, hoth, hu, hst | ⟨hst, hsome, hfl⟩⟩
    · have hst2 : w1.stack = args ++ [.nil] := hst
      simp only [hst2, drop_last_one]
      exact Or.inl ⟨⟨by rw [hs], by rw [hs], by rw [hs]⟩, rfl⟩
    · have hst2 : w1.stack = (args ++ [.userdata w.store.brk]) ++ [.nil] := by
        rw [hst]; simp
      simp only [hst2, drop_last_one]
      exact Or.inr (Or.inr ⟨hnew, hbrk, hreg, hoth, hu, Or.inl rfl⟩)
    · have hst2 : w1.stack = args ++ [.userdata w.store.brk] := hst
      simp only [hst2, drop_last_one]
      exact Or.inr (Or.inr ⟨hnew, hbrk, hreg, hoth, hu, Or.inr ⟨rfl, hsome, hfl⟩⟩)

/-- Every operation is one of the three kinds of transition. -/
theorem step_transition (host : Host) (w : World) (op : Op) :
    w.store.transition (step host w op).store (op.opened host w) := by
  cases op with
  | «open» args => exact open_transition host args w
  | enableBroadcast args =>
    exact facade_transition _ (fun W n w1 => enable_broadcast_heap host W w1 n) args w
  | bind args => exact facade_transition _ (fun W n w1 => bind_heap host W w1 n) args w
  | connect args => exact facade_transition _ (fun W n w1 => connect_heap host W w1 n) args w
  | send args => exact facade_transition _ (fun W n w1 => send_heap host W w1 n) args w
  | sendto args => exact facade_transition _ (fun W n w1 => sendto_heap host W w1 n) args w
  | setRecvCb args => exact set_recv_cb_transition args w
  | setErrCb args => exact set_err_cb_transition args w
  | close args => exact close_transition args w
  | release args => exact gc_transition args w
  | tostring args =>
    exact facade_transition _ (fun W n w1 => tostring_heap host W w1 n) args w

/-- Along any run, the frontier stays fresh and every handle that was consistent at
the start or was returned by `open` during the run is consistent at the end. -/
theorem exec_keeps (host : Host) (ops : List Op) :
    ∀ (w : World) (S : List Nat), w.store.fresh → (∀ a ∈ S, w.store.consistent a) →
      ∀ a ∈ S ++ opened host w ops, (exec host w ops).store.consistent a := by
  induction ops with
  | nil =>
    intro w S _ hc a ha
    exact hc a (by simpa [opened] using ha)
  | cons op ops ih =>
    intro w S hf hc a ha
    obtain ⟨hf1, hc1⟩ := transition_keeps _ _ _ S (step_transition host w op) hf hc
    have := ih (step host w op) (S ++ op.opened host w) hf1 hc1 a
      (by simpa [opened, List.append_assoc] using ha)
    exact this

theorem init_fresh : World.init.store.fresh := by
  intro a _
  exact ⟨rfl, fun _ => rfl⟩

/-- Claim C8: in every state reached from the initial state by any sequence of
operations of the binding (`open`, `setRecvCb`, `setErrCb`, `close`, release, and the
socket operations, with arbitrary arguments), every handle that `open` returned during
the run has each of its four presence flags true if and only if the slot store holds a
non-nil value under that handle's key for that role; and if the handle is Closed, all
four flags are false and all four slots are nil. -/
theorem presence_flags_agree_with_slots (host : Host) (ops : List Op) (a : Nat)
    (ha : a ∈ opened host World.init ops) :
    ∃ h, (exec host World.init ops).store.udata a = some h ∧
      (∀ k, h.flag k = true ↔ (exec host World.init ops).store.registry a k ≠ .nil) ∧
      (h.udp = none →
        ∀ k, h.flag k = false ∧ (exec host World.init ops).store.registry a k = .nil) :=
  exec_keeps host ops World.init [] init_fresh (fun _ hx => absurd hx (List.not_mem_nil _)) a
    (by simpa using ha)

theorem presence_flags_agree_with_slots_witness :
    ∃ h, (exec (sampleHost none) World.init sampleScript).store.udata 0 = some h ∧
      (∀ k, h.flag k = true ↔
        (exec (sampleHost none) World.init sampleScript).store.registry 0 k ≠ .nil) ∧
      (h.udp = none →
        ∀ k, h.flag k = false ∧
          (exec (sampleHost none) World.init sampleScript).store.registry 0 k = .nil) :=
  presence_flags_agree_with_slots (sampleHost none) sampleScript 0 (by decide)

end LuaHomebridge
